import Mathlib

/-!
# ConMan session worker (server-sock.c): a shallow embedding

The definitions below follow `src/server-sock.c` function by function.

* C strings are `List Char` (the bytes before the terminating NUL); a `char *`
  that may be `NULL` is an `Option (List Char)`.
* The socket and the allocator are an explicit `World`: the outcomes of the
  coming allocation attempts and `write_n` calls are read from it, and every
  `write_n` and `close` is appended to its `trace`.
* What `server-sock.c` calls but the repository keeps elsewhere or takes from
  libc (the lexer's string coding, the POSIX regex functions) is the argument
  `x : Ext Rex` of the functions that use it.
* `log_msg` calls and `assert`s leave no mark in the model; an assertion a theorem
  depends on is a hypothesis of that theorem.
-/

namespace Conman

/-! ## Constants (common.h) -/

/-- `MAX_BUF_SIZE` of common.h. -/
def MAX_BUF_SIZE : Nat := 8192

/-- `MAX_SOCK_LINE` of common.h. -/
def MAX_SOCK_LINE : Nat := 8192

/-- The newline character. -/
def NL : Char := Char.ofNat 10

/-- The single-quote character that delimits protocol strings. -/
def SQUOTE : Char := Char.ofNat 39

/-- The double-quote character. -/
def DQUOTE : Char := Char.ofNat 34

/-- `enum cmd_type`, with the `EXECUTE` command that server-sock.c dispatches on. -/
inductive cmd_t
  | NONE
  | CONNECT
  | EXECUTE
  | MONITOR
  | QUERY
  deriving DecidableEq, Repr

/-- `CONMAN_ERR_NONE` of `enum err_type`. -/
def CONMAN_ERR_NONE : Int := 0
/-- `CONMAN_ERR_LOCAL` of `enum err_type`. -/
def CONMAN_ERR_LOCAL : Int := 1
/-- `CONMAN_ERR_BAD_REQUEST` of `enum err_type`. -/
def CONMAN_ERR_BAD_REQUEST : Int := 2
/-- `CONMAN_ERR_BAD_REGEX` of `enum err_type`. -/
def CONMAN_ERR_BAD_REGEX : Int := 3
/-- `CONMAN_ERR_AUTHENTICATE` of `enum err_type`. -/
def CONMAN_ERR_AUTHENTICATE : Int := 4
/-- `CONMAN_ERR_NO_CONSOLES` of `enum err_type`. -/
def CONMAN_ERR_NO_CONSOLES : Int := 5
/-- `CONMAN_ERR_TOO_MANY_CONSOLES` of `enum err_type`. -/
def CONMAN_ERR_TOO_MANY_CONSOLES : Int := 6
/-- `CONMAN_ERR_BUSY_CONSOLES` of `enum err_type`. -/
def CONMAN_ERR_BUSY_CONSOLES : Int := 7
/-- `CONMAN_ERR_NO_RESOURCES` of `enum err_type`. -/
def CONMAN_ERR_NO_RESOURCES : Int := 8

/-- `enum proto_toks`: the keywords of the protocol. `EXECUTE` and `PROGRAM` are the two
keywords server-sock.c uses beyond the ones common.h lists. -/
inductive proto_toks
  | OK
  | ERROR
  | BROADCAST
  | CODE
  | CONNECT
  | CONSOLE
  | EXECUTE
  | FORCE
  | HELLO
  | JOIN
  | MESSAGE
  | MONITOR
  | OPTION
  | PROGRAM
  | QUERY
  | QUIET
  | REGEX
  | TTY
  | USER
  deriving DecidableEq, Repr

/-- Modelled from the spec: `proto_strs[]` is defined in common.c, which is not among the
sources; each keyword is spelled as the wire protocol of the spec (section 6) writes it. -/
def proto_strs : proto_toks → List Char
  | .OK => ['O', 'K']
  | .ERROR => ['E', 'R', 'R', 'O', 'R']
  | .BROADCAST => ['B', 'R', 'O', 'A', 'D', 'C', 'A', 'S', 'T']
  | .CODE => ['C', 'O', 'D', 'E']
  | .CONNECT => ['C', 'O', 'N', 'N', 'E', 'C', 'T']
  | .CONSOLE => ['C', 'O', 'N', 'S', 'O', 'L', 'E']
  | .EXECUTE => ['E', 'X', 'E', 'C', 'U', 'T', 'E']
  | .FORCE => ['F', 'O', 'R', 'C', 'E']
  | .HELLO => ['H', 'E', 'L', 'L', 'O']
  | .JOIN => ['J', 'O', 'I', 'N']
  | .MESSAGE => ['M', 'E', 'S', 'S', 'A', 'G', 'E']
  | .MONITOR => ['M', 'O', 'N', 'I', 'T', 'O', 'R']
  | .OPTION => ['O', 'P', 'T', 'I', 'O', 'N']
  | .PROGRAM => ['P', 'R', 'O', 'G', 'R', 'A', 'M']
  | .QUERY => ['Q', 'U', 'E', 'R', 'Y']
  | .QUIET => ['Q', 'U', 'I', 'E', 'T']
  | .REGEX => ['R', 'E', 'G', 'E', 'X']
  | .TTY => ['T', 'T', 'Y']
  | .USER => ['U', 'S', 'E', 'R']

/-! ## Objects and requests -/

/-- The variant tag of an object. server.h is not among the sources: `CONSOLE` is the tag
`query_consoles` tests, `SOCKET` the kind `create_socket_obj` makes, `LOGFILE` the remaining
kind of the spec's data model. -/
inductive obj_type
  | CONSOLE
  | LOGFILE
  | SOCKET
  deriving DecidableEq, Repr

/-- Modelled from the spec: `obj_t` is declared in server.h, which is not among the sources.
Of the object of section 3 the fields kept are the identifier, the name, the variant tag, the
writer and readers of the linking graph, and the file descriptor (-1 when the example at
hand has no use for it). -/
structure obj_t where
  id : Nat
  name : List Char
  type : obj_type
  writer : Option Nat
  readers : List Nat
  fd : Int := -1
  deriving DecidableEq, Repr

/-- The part of `server_conf_t` that server-sock.c reads: the listening descriptor and the
object registry `conf->objs`. -/
structure server_conf_t where
  ld : Int
  objs : List obj_t
  deriving DecidableEq, Repr

/-- The `req->consoles` list. It holds the pattern strings of the request until
`query_consoles` replaces it with the matching objects. -/
inductive console_list
  | strs (l : List (List Char))
  | objs (l : List obj_t)
  deriving DecidableEq, Repr

/-- `list_is_empty` on `req->consoles`. -/
def console_list.is_empty : console_list → Bool
  | .strs l => l.isEmpty
  | .objs l => l.isEmpty

/-- The console objects a request holds: none while the list still holds pattern strings. -/
def console_list.matched : console_list → List obj_t
  | .strs _ => []
  | .objs l => l

/-- `struct request` of server-sock.c. -/
structure req_t where
  sd : Int
  ip : Option (List Char)
  host : Option (List Char)
  user : Option (List Char)
  command : cmd_t
  enableBroadcast : Int
  enableForce : Int
  program : Option (List Char)
  consoles : console_list
  deriving DecidableEq, Repr

/-! ## The world outside the worker -/

/-- What the worker does to its socket. `write sd data ok` is one `write_n` call with the
bytes handed to it and whether it succeeded. -/
inductive Event
  | write (sd : Int) (data : List Char) (ok : Bool)
  | close (sd : Int)
  deriving DecidableEq, Repr

/-- The allocator and the socket. `allocs` and `writes` give the outcomes of the coming
allocation attempts and `write_n` calls, in order (`true` is success, and so is every call
after the list is used up); `trace` is what has been done so far, oldest first. -/
structure World where
  allocs : List Bool
  writes : List Bool
  trace : List Event
  deriving DecidableEq, Repr

/-- One allocation attempt (`malloc`, `strdup`, `list_create`, `list_append`,
`list_iterator_create`, `lex_create`): whether it succeeds, and the world after it. -/
def World.alloc (w : World) : Bool × World :=
  match w.allocs with
  | [] => (true, w)
  | b :: rest => (b, { w with allocs := rest })

/-- Whether the next `write_n` call succeeds. -/
def World.write_ok (w : World) : Bool :=
  match w.writes with
  | [] => true
  | b :: _ => b

/-- `write_n(sd, data, n)`: returns `n`, or -1 on error. -/
def write_n (sd : Int) (data : List Char) (w : World) : Int × World :=
  (if w.write_ok then (data.length : Int) else -1,
   { w with writes := w.writes.tail, trace := w.trace ++ [Event.write sd data w.write_ok] })

/-! ## send_rsp -/

/-- The `%d` conversion of `snprintf`. -/
def fmt_d (n : Int) : List Char := (toString n).toList

/-- C99 `snprintf(buf, size, ...)` where `formatted` is the full expansion of the format:
the bytes stored in `buf` before the NUL, and the returned length. -/
def snprintf (size : Nat) (formatted : List Char) : List Char × Int :=
  (formatted.take (size - 1), formatted.length)

/-- The three assertions at the head of `send_rsp`. -/
def send_rsp_asserts (req : req_t) (errnum : Int) (errmsg : Option (List Char)) : Prop :=
  0 ≤ req.sd ∧ 0 ≤ errnum ∧ ∀ m, errmsg = some m → SQUOTE ∉ m

/-- The expansion of the format of the `snprintf` call of `send_rsp`, lines 577-593. -/
def rsp_format (errnum : Int) (errmsg : Option (List Char)) : List Char :=
  if errnum = CONMAN_ERR_NONE then
    proto_strs .OK ++ [NL]
  else
    proto_strs .ERROR ++ [' '] ++ proto_strs .CODE ++ ['='] ++ fmt_d errnum ++ [' ']
      ++ proto_strs .MESSAGE ++ ['='] ++ [SQUOTE]
      ++ (match errmsg with
          | some m => m
          | none => ['D', 'o', 'h', '!'])
      ++ [SQUOTE] ++ [NL]

/-- The line `send_rsp` builds in `buf`, lines 575-604: the `snprintf` into the
`MAX_SOCK_LINE` bytes of `buf` and, when that overran, the three bytes stored at the end. -/
def rsp_line (errnum : Int) (errmsg : Option (List Char)) : List Char :=
  let r := snprintf MAX_SOCK_LINE (rsp_format errnum errmsg)
  if r.2 < 0 ∨ r.2 ≥ (MAX_SOCK_LINE : Int) then
    (((r.1.set (MAX_SOCK_LINE - 3) DQUOTE).set (MAX_SOCK_LINE - 2) NL).take (MAX_SOCK_LINE - 1))
  else r.1

/-- `send_rsp(req, errnum, errmsg)`, lines 558-615: 0 if the response is sent, -1 on error.
The assertions of lines 571-573 are `send_rsp_asserts`; what a debug build does when one
fails is not modelled. -/
def send_rsp (req : req_t) (errnum : Int) (errmsg : Option (List Char)) (w : World) :
    Int × World :=
  let r := write_n req.sd (rsp_line errnum errmsg) w
  if r.1 < 0 then (-1, r.2) else (0, r.2)

/-- "Insufficient resources to process request." -/
def MSG_NO_RESOURCES : List Char :=
  "Insufficient resources to process request.".toList

/-- "Found no matching consoles." -/
def MSG_NO_CONSOLES : List Char := "Found no matching consoles.".toList

/-! ## validate_req -/

/-- `validate_req(req)`: lines 546-555. -/
def validate_req (req : req_t) (w : World) : Int × World :=
  if req.consoles.is_empty then
    (-1, (send_rsp req CONMAN_ERR_NO_CONSOLES (some MSG_NO_CONSOLES) w).2)
  else
    (0, w)

/-! ## create_req -/

/-- `create_req(sd)`: lines 163-195. `NULL` when the request or its list cannot be
allocated. -/
def create_req (sd : Int) (w : World) : Option req_t × World :=
  if w.alloc.1 = false then (none, w.alloc.2)
  else if w.alloc.2.alloc.1 = false then (none, w.alloc.2.alloc.2)
  else
    (some { sd := sd, ip := none, host := none, user := none, command := cmd_t.NONE,
            enableBroadcast := 0, enableForce := 0, program := none, consoles := .strs [] },
      w.alloc.2.alloc.2)

/-! ## External collaborators -/

/-- What server-sock.c calls and does not define: `lex_decode` and `lex_encode` of the
lexer (lex.c is not among the sources), and `regcomp`, `regexec` and `regerror` of the C
library, always called with `REG_EXTENDED | REG_ICASE | REG_NOSUB | REG_NEWLINE`.
`regcomp` gives the compiled `regex_t`, or its nonzero return code; `regexec rex s` is
`true` when `regexec` returns 0 on `s`. -/
structure Ext (Rex : Type) where
  lex_decode : List Char → List Char
  lex_encode : List Char → List Char
  regcomp : List Char → Except Nat Rex
  regexec : Rex → List Char → Bool
  regerror : Nat → List Char

/-- Modelled from the spec: the tokens `lex_next` returns (lex.h is not among the sources),
as section 4.1 lists them: the error token, the newline, a quoted string with its text, a
single-character punctuator, a keyword. The end of input `LEX_EOF` is the end of the token
list. -/
inductive Tok
  | ERR
  | EOL
  | STR (text : List Char)
  | CHR (c : Char)
  | KW (k : proto_toks)
  deriving DecidableEq, Repr

/-- `lex_decode(strdup(lex_text(l)))`: `NULL` when the copy cannot be allocated. -/
def decode_dup {Rex : Type} (x : Ext Rex) (text : List Char) (w : World) :
    Option (List Char) × World :=
  if w.alloc.1 then (some (x.lex_decode text), w.alloc.2) else (none, w.alloc.2)

/-! ## The greeting -/

/-- `parse_greeting(l, req)`: lines 297-327. The lexer `l` is the list of the tokens still
to come; the result is the return value, the lexer, the request and the world. -/
def parse_greeting {Rex : Type} (x : Ext Rex) :
    List Tok → req_t → World → Int × List Tok × req_t × World
  | [], req, w => (0, [], req, w)
  | t :: l, req, w =>
    if t = Tok.KW .USER then
      match l with
      | [] => (0, [], req, w)
      | t1 :: l1 =>
        if t1 = Tok.CHR '=' then
          match l1 with
          | [] => (0, [], req, w)
          | Tok.STR text :: l2 =>
            if text ≠ [] then
              if (decode_dup x text w).1 = none then
                (-1, l2, { req with user := none }, (decode_dup x text w).2)
              else
                parse_greeting x l2 { req with user := (decode_dup x text w).1 }
                  (decode_dup x text w).2
            else parse_greeting x l2 req w
          | _ :: l2 => parse_greeting x l2 req w
        else parse_greeting x l1 req w
    else if t = Tok.EOL then (0, l, req, w)
    else parse_greeting x l req w

/-- The `while (!done)` loop of `recv_greeting`, lines 252-265: the final value of `done`,
the request and the world. Every turn takes at least one token, so a `fuel` above the number
of tokens is never used up (`recv_greeting_loop_fuel`). -/
def recv_greeting_loop {Rex : Type} (x : Ext Rex) :
    Nat → List Tok → req_t → World → Int × req_t × World
  | 0, _, req, w => (1, req, w)
  | _ + 1, [], req, w => (1, req, w)
  | fuel + 1, t :: l, req, w =>
    if t = Tok.KW .HELLO then
      if (parse_greeting x l req w).1 ≠ 0 then
        ((parse_greeting x l req w).1, (parse_greeting x l req w).2.2)
      else
        recv_greeting_loop x fuel (parse_greeting x l req w).2.1
          (parse_greeting x l req w).2.2.1 (parse_greeting x l req w).2.2.2
    else if t = Tok.EOL then (1, req, w)
    else recv_greeting_loop x fuel l req w

/-- "Invalid greeting: no user specified" -/
def MSG_NO_USER : List Char := "Invalid greeting: no user specified".toList

/-- "Authentication required (but not yet implemented)" -/
def MSG_AUTH : List Char := "Authentication required (but not yet implemented)".toList

/-- The address `recv_greeting` compares `req->ip` with. -/
def LOCALHOST_IP : List Char := "127.0.0.1".toList

/-- `recv_greeting(req)`: lines 220-294. `ndebug` tells whether the build defines `NDEBUG`;
`n` is what `read_line` returned and `toks` the tokens the lexer finds in the line read. -/
def recv_greeting {Rex : Type} (x : Ext Rex) (ndebug : Bool) (n : Int) (toks : List Tok)
    (req : req_t) (w : World) : Int × req_t × World :=
  if n < 0 then (-1, req, w)
  else if n = 0 then (-1, req, w)
  else if w.alloc.1 = false then
    (-1, req, (send_rsp req CONMAN_ERR_NO_RESOURCES (some MSG_NO_RESOURCES) w.alloc.2).2)
  else
    let r := recv_greeting_loop x (toks.length + 1) toks req w.alloc.2
    if r.1 = -1 then
      (-1, r.2.1, (send_rsp r.2.1 CONMAN_ERR_NO_RESOURCES (some MSG_NO_RESOURCES) r.2.2).2)
    else if r.2.1.user = none then
      (-1, r.2.1, (send_rsp r.2.1 CONMAN_ERR_BAD_REQUEST (some MSG_NO_USER) r.2.2).2)
    else if ndebug = true ∧ r.2.1.ip ≠ some LOCALHOST_IP then
      (-1, r.2.1, (send_rsp r.2.1 CONMAN_ERR_AUTHENTICATE (some MSG_AUTH) r.2.2).2)
    else
      ((send_rsp r.2.1 CONMAN_ERR_NONE none r.2.2).1, r.2.1,
        (send_rsp r.2.1 CONMAN_ERR_NONE none r.2.2).2)

/-! ## The request -/

/-- `parse_cmd_opts(l, req)`: lines 396-445. `lex_prev(l)` is the token the last `lex_next`
returned, so line 423 looks again at the token line 421 read. The list `req->consoles` holds
strings when the function runs; on a list of objects the model leaves the list as it is. -/
def parse_cmd_opts {Rex : Type} (x : Ext Rex) :
    List Tok → req_t → World → Int × List Tok × req_t × World
  | [], req, w => (0, [], req, w)
  | t :: l, req, w =>
    if t = Tok.KW .CONSOLE then
      match l with
      | [] => (0, [], req, w)
      | t1 :: l1 =>
        if t1 = Tok.CHR '=' then
          match l1 with
          | [] => (0, [], req, w)
          | Tok.STR text :: l2 =>
            if text ≠ [] then
              match (decode_dup x text w).1 with
              | none => (-1, l2, req, (decode_dup x text w).2)
              | some str =>
                if (decode_dup x text w).2.alloc.1 = false then
                  (-1, l2, req, (decode_dup x text w).2.alloc.2)
                else
                  parse_cmd_opts x l2
                    { req with consoles :=
                        match req.consoles with
                        | .strs ps => .strs (ps ++ [str])
                        | .objs os => .objs os }
                    (decode_dup x text w).2.alloc.2
            else parse_cmd_opts x l2 req w
          | _ :: l2 => parse_cmd_opts x l2 req w
        else parse_cmd_opts x l1 req w
    else if t = Tok.KW .OPTION then
      match l with
      | [] => (0, [], req, w)
      | t1 :: l1 =>
        if t1 = Tok.CHR '=' then
          match l1 with
          | [] => (0, [], req, w)
          | t2 :: l2 =>
            if t2 = Tok.KW .FORCE then parse_cmd_opts x l2 { req with enableForce := 1 } w
            else if t2 = Tok.KW .BROADCAST then
              parse_cmd_opts x l2 { req with enableBroadcast := 1 } w
            else parse_cmd_opts x l2 req w
        else parse_cmd_opts x l1 req w
    else if t = Tok.KW .PROGRAM then
      match l with
      | [] => (0, [], req, w)
      | t1 :: l1 =>
        if t1 = Tok.CHR '=' then
          match l1 with
          | [] => (0, [], req, w)
          | Tok.STR text :: l2 =>
            if text ≠ [] then
              if (decode_dup x text w).1 = none then
                (-1, l2, { req with program := none }, (decode_dup x text w).2)
              else
                parse_cmd_opts x l2 { req with program := (decode_dup x text w).1 }
                  (decode_dup x text w).2
            else parse_cmd_opts x l2 req w
          | _ :: l2 => parse_cmd_opts x l2 req w
        else parse_cmd_opts x l1 req w
    else if t = Tok.EOL then (0, l, req, w)
    else parse_cmd_opts x l req w

/-- The command a keyword of the request line selects, lines 361-376. -/
def command_of : Tok → Option cmd_t
  | Tok.KW .CONNECT => some cmd_t.CONNECT
  | Tok.KW .EXECUTE => some cmd_t.EXECUTE
  | Tok.KW .MONITOR => some cmd_t.MONITOR
  | Tok.KW .QUERY => some cmd_t.QUERY
  | _ => none

/-- The `while (!done)` loop of `recv_req`, lines 358-384: the final value of `done`, the
request and the world. Every turn takes at least one token, so a `fuel` above the number of
tokens is never used up (`recv_req_loop_fuel`). -/
def recv_req_loop {Rex : Type} (x : Ext Rex) :
    Nat → List Tok → req_t → World → Int × req_t × World
  | 0, _, req, w => (1, req, w)
  | _ + 1, [], req, w => (1, req, w)
  | fuel + 1, t :: l, req, w =>
    match command_of t with
    | some c =>
      if (parse_cmd_opts x l { req with command := c } w).1 ≠ 0 then
        ((parse_cmd_opts x l { req with command := c } w).1,
          (parse_cmd_opts x l { req with command := c } w).2.2)
      else
        recv_req_loop x fuel (parse_cmd_opts x l { req with command := c } w).2.1
          (parse_cmd_opts x l { req with command := c } w).2.2.1
          (parse_cmd_opts x l { req with command := c } w).2.2.2
    | none =>
      if t = Tok.EOL then (1, req, w)
      else recv_req_loop x fuel l req w

/-- `recv_req(req)`: lines 330-393. `n` is what `read_line` returned and `toks` the tokens
the lexer finds in the line read. -/
def recv_req {Rex : Type} (x : Ext Rex) (n : Int) (toks : List Tok) (req : req_t)
    (w : World) : Int × req_t × World :=
  if n < 0 then (-1, req, w)
  else if n = 0 then (-1, req, w)
  else if w.alloc.1 = false then
    (-1, req, (send_rsp req CONMAN_ERR_NO_RESOURCES (some MSG_NO_RESOURCES) w.alloc.2).2)
  else
    let r := recv_req_loop x (toks.length + 1) toks req w.alloc.2
    if r.1 = -1 then
      (-1, r.2.1, (send_rsp r.2.1 CONMAN_ERR_NO_RESOURCES (some MSG_NO_RESOURCES) r.2.2).2)
    else (0, r.2.1, r.2.2)

/-! ## query_consoles -/

/-- `strlcpy(dst, src, size)`, the BSD function (util-str.c is not among the sources): `dst`
gets the first `size - 1` bytes of `src`. -/
def strlcpy (src : List Char) (size : Nat) : List Char := src.take (size - 1)

/-- `strlcat(dst, src, size)`, the BSD function: `src` is appended to `dst` as far as
`size - 1` bytes in all allow; a `dst` already that long is left as it is. -/
def strlcat (dst src : List Char) (size : Nat) : List Char :=
  if size ≤ dst.length then dst else (dst ++ src).take (size - 1)

/-- The regex source that lines 481-490 build in `buf` from the strings of `req->consoles`. -/
def query_buf : List (List Char) → List Char
  | [] => []
  | p :: ps =>
    ps.foldl (fun buf q => strlcat (strlcat buf ['|'] MAX_BUF_SIZE) q MAX_BUF_SIZE)
      (strlcpy p MAX_BUF_SIZE)

/-- The loop of lines 517-528 over `conf->objs`: the list `matches` at its end, or `none`
when a `list_append` fails. -/
def match_objs {Rex : Type} (x : Ext Rex) (rex : Rex) :
    List obj_t → List obj_t → World → Option (List obj_t) × World
  | [], acc, w => (some acc, w)
  | obj :: rest, acc, w =>
    if obj.type ≠ obj_type.CONSOLE then match_objs x rex rest acc w
    else if x.regexec rex obj.name then
      if w.alloc.1 = false then (none, w.alloc.2)
      else match_objs x rex rest (acc ++ [obj]) w.alloc.2
    else match_objs x rex rest acc w

/-- The label `no_mem` of `query_consoles`, lines 539-542. -/
def query_no_mem (req : req_t) (w : World) : Int × req_t × World :=
  (-1, req, (send_rsp req CONMAN_ERR_NO_RESOURCES (some MSG_NO_RESOURCES) w).2)

/-- Lines 481-537 of `query_consoles`, on a request whose list holds the strings `ps`. -/
def query_resolve {Rex : Type} (x : Ext Rex) (conf : server_conf_t) (ps : List (List Char))
    (req : req_t) (w : World) : Int × req_t × World :=
  if w.alloc.1 = false then query_no_mem req w.alloc.2
  else
    match x.regcomp (query_buf ps) with
    | .error rc =>
      (-1, req,
        (send_rsp req CONMAN_ERR_BAD_REGEX
          (some (x.lex_encode ((x.regerror rc).take (MAX_BUF_SIZE - 1)))) w.alloc.2).2)
    | .ok rex =>
      if w.alloc.2.alloc.1 = false then query_no_mem req w.alloc.2.alloc.2
      else if w.alloc.2.alloc.2.alloc.1 = false then
        query_no_mem req w.alloc.2.alloc.2.alloc.2
      else
        match match_objs x rex conf.objs [] w.alloc.2.alloc.2.alloc.2 with
        | (none, w1) => query_no_mem req w1
        | (some ms, w1) => (0, { req with consoles := .objs ms }, w1)

/-- `query_consoles(conf, req)`: lines 448-543. The list `req->consoles` holds strings when
it is called (`create_req`, `parse_cmd_opts`); a list of objects is not an input of the C
function and is answered -1 here. -/
def query_consoles {Rex : Type} (x : Ext Rex) (conf : server_conf_t) (req : req_t)
    (w : World) : Int × req_t × World :=
  match req.consoles with
  | .objs _ => (-1, req, w)
  | .strs ps =>
    if ps.isEmpty then
      if req.command ≠ cmd_t.QUERY then (0, req, w)
      else if w.alloc.1 = false then query_no_mem req w.alloc.2
      else if w.alloc.2.alloc.1 = false then query_no_mem req w.alloc.2.alloc.2
      else
        query_resolve x conf [['.', '*']] { req with consoles := .strs [['.', '*']] }
          w.alloc.2.alloc.2
    else query_resolve x conf ps req w

/-! ## The commands -/

/-- `close(sd)`: the descriptor is closed. -/
def World.close (w : World) (sd : Int) : World :=
  { w with trace := w.trace ++ [Event.close sd] }

/-- Modelled from the spec: the comparison behind "ascending case-insensitive order" of
section 4.4, as `strcasecmp` makes it: negative, zero or positive as the first string, with
case ignored, comes before, with or after the second. -/
def strcasecmp : List Char → List Char → Int
  | [], [] => 0
  | [], _ :: _ => -1
  | _ :: _, [] => 1
  | a :: s, b :: t =>
    if a.toLower.toNat < b.toLower.toNat then -1
    else if b.toLower.toNat < a.toLower.toNat then 1
    else strcasecmp s t

/-- Modelled from the spec: `compare_objs` is defined in server-obj.c, which is not among
the sources; section 4.4 has the console names sorted in ascending case-insensitive
order. -/
def compare_objs (a b : obj_t) : Int := strcasecmp a.name b.name

/-- Modelled from the spec: `list_sort(l, f)` is defined in list.c, which is not among the
sources: the items of `l` in ascending order for the comparison `f`. -/
def list_sort (l : List obj_t) (f : obj_t → obj_t → Int) : List obj_t :=
  l.insertionSort (fun a b => f a b ≤ 0)

/-- The line of lines 642-643 for a console name: the name and a newline, within the
`MAX_BUF_SIZE` bytes of `buf`. -/
def query_line (name : List Char) : List Char :=
  strlcat (strlcpy name MAX_BUF_SIZE) [NL] MAX_BUF_SIZE

/-- The loop of lines 641-648: one `write_n` for each object, up to the first that fails. -/
def query_write_loop (sd : Int) : List obj_t → World → World
  | [], w => w
  | obj :: rest, w =>
    if (write_n sd (query_line obj.name) w).1 < 0 then (write_n sd (query_line obj.name) w).2
    else query_write_loop sd rest (write_n sd (query_line obj.name) w).2

/-- `perform_query_cmd(req)`: lines 618-657. The list of the request holds objects when the
function runs. -/
def perform_query_cmd (req : req_t) (w : World) : req_t × World :=
  let sorted := list_sort req.consoles.matched compare_objs
  if w.alloc.1 = false then
    ({ req with consoles := .objs sorted },
      (send_rsp req CONMAN_ERR_NO_RESOURCES (some MSG_NO_RESOURCES) w.alloc.2).2)
  else
    ({ req with consoles := .objs sorted, sd := -1 },
      (query_write_loop req.sd sorted
        (send_rsp req CONMAN_ERR_NONE none w.alloc.2).2).close req.sd)

/-- `perform_monitor_cmd(req, conf)`: lines 660-666. -/
def perform_monitor_cmd (req : req_t) (conf : server_conf_t) (w : World) :
    req_t × server_conf_t × World :=
  (req, conf, w)

/-- An identifier no object of the registry has. -/
def fresh_id (objs : List obj_t) : Nat :=
  (objs.map (fun o => o.id)).foldl max 0 + 1

/-- Modelled from the spec: `create_socket_obj(objs, user, host, sd)` is defined in
server-obj.c, which is not among the sources. Section 3: a CLIENT object is created by the
session worker and inserted into the registry; it holds the descriptor of the client. `NULL`
when it cannot be allocated. -/
def create_socket_obj (conf : server_conf_t) (user host : Option (List Char)) (sd : Int)
    (w : World) : Option obj_t × server_conf_t × World :=
  if w.alloc.1 = false then (none, conf, w.alloc.2)
  else
    (some { id := fresh_id conf.objs, name := user.getD [] ++ ['@'] ++ host.getD [],
            type := obj_type.SOCKET, writer := none, readers := [], fd := sd },
      { conf with objs := conf.objs ++
          [{ id := fresh_id conf.objs, name := user.getD [] ++ ['@'] ++ host.getD [],
             type := obj_type.SOCKET, writer := none, readers := [], fd := sd }] },
      w.alloc.2)

/-- Modelled from the spec: `link_objs(src, dst)` is defined in server-obj.c, which is not
among the sources. Section 4.2: `dst` is put among the readers of `src` and `src` becomes
the writer of `dst`; the link fails, with -1, when `dst` is a console that already has a
writer, and when the entry cannot be allocated. Objects are named by their identifiers. -/
def link_objs (conf : server_conf_t) (src dst : Nat) (w : World) :
    Int × server_conf_t × World :=
  if conf.objs.any (fun o => decide (o.id = dst) && decide (o.type = obj_type.CONSOLE)
      && o.writer.isSome) then (-1, conf, w)
  else if w.alloc.1 = false then (-1, conf, w.alloc.2)
  else
    (0, { conf with objs := conf.objs.map (fun o =>
            if o.id = dst then { o with writer := some src }
            else if o.id = src then { o with readers := o.readers ++ [dst] }
            else o) },
      w.alloc.2)

/-- Modelled from the spec: `destroy_obj(obj)` is defined in server-obj.c, which is not
among the sources. Sections 3 and 4.3: the object is unlinked from its neighbours and
removed from the registry. -/
def destroy_obj (conf : server_conf_t) (id : Nat) : server_conf_t :=
  { conf with objs := (conf.objs.filter (fun o => decide (o.id ≠ id))).map (fun o =>
      { o with writer := if o.writer = some id then none else o.writer,
               readers := o.readers.filter (fun r => decide (r ≠ id)) }) }

/-- `perform_connect_cmd(req, conf)`: lines 669-688. The list of the request holds at least
one object when the function runs (`validate_req`); on an empty list `list_pop` gives `NULL`
and the model stops after the response. -/
def perform_connect_cmd (req : req_t) (conf : server_conf_t) (w : World) :
    req_t × server_conf_t × World :=
  match req.consoles.matched with
  | [] => (req, conf, (send_rsp req CONMAN_ERR_NONE none w).2)
  | console :: rest =>
    match create_socket_obj conf req.user req.host req.sd
        (send_rsp req CONMAN_ERR_NONE none w).2 with
    | (none, conf1, w1) => ({ req with consoles := .objs rest }, conf1, w1)
    | (some socket, conf1, w1) =>
      if (link_objs conf1 socket.id console.id w1).1 < 0 then
        ({ req with consoles := .objs rest },
          destroy_obj (link_objs conf1 socket.id console.id w1).2.1 socket.id,
          (link_objs conf1 socket.id console.id w1).2.2)
      else if (link_objs (link_objs conf1 socket.id console.id w1).2.1 console.id socket.id
          (link_objs conf1 socket.id console.id w1).2.2).1 < 0 then
        ({ req with consoles := .objs rest },
          destroy_obj
            (link_objs (link_objs conf1 socket.id console.id w1).2.1 console.id socket.id
              (link_objs conf1 socket.id console.id w1).2.2).2.1 socket.id,
          (link_objs (link_objs conf1 socket.id console.id w1).2.1 console.id socket.id
            (link_objs conf1 socket.id console.id w1).2.2).2.2)
      else
        ({ req with consoles := .objs rest },
          (link_objs (link_objs conf1 socket.id console.id w1).2.1 console.id socket.id
            (link_objs conf1 socket.id console.id w1).2.2).2.1,
          (link_objs (link_objs conf1 socket.id console.id w1).2.1 console.id socket.id
            (link_objs conf1 socket.id console.id w1).2.2).2.2)

/-- `perform_execute_cmd(req, conf)`: lines 691-700. -/
def perform_execute_cmd (req : req_t) (conf : server_conf_t) (w : World) :
    req_t × server_conf_t × World :=
  (req, conf, w)

/-! ## process_client -/

/-- The label `err` of `process_client`, lines 148-159: the registry and the world when the
function returns. -/
def process_err (conf : server_conf_t) (req : req_t) (w : World) : server_conf_t × World :=
  if req.sd > 0 then (conf, w.close req.sd) else (conf, w)

/-- The `switch` of `process_client`, lines 121-141. -/
def dispatch (req : req_t) (conf : server_conf_t) (w : World) :
    req_t × server_conf_t × World :=
  match req.command with
  | cmd_t.CONNECT => perform_connect_cmd req conf w
  | cmd_t.EXECUTE => perform_execute_cmd req conf w
  | cmd_t.MONITOR => perform_monitor_cmd req conf w
  | cmd_t.QUERY => ((perform_query_cmd req w).1, conf, (perform_query_cmd req w).2)
  | cmd_t.NONE => (req, conf, w)

/-- Lines 112-146 of `process_client`, on the request `req`: `n1` and `toks1` are what
`read_line` returned for the greeting and the tokens of that line, `n2` and `toks2` the same
for the request line. The result is the registry and the world when the function returns. -/
def process_session {Rex : Type} (x : Ext Rex) (ndebug : Bool) (conf : server_conf_t)
    (req : req_t) (n1 : Int) (toks1 : List Tok) (n2 : Int) (toks2 : List Tok) (w : World) :
    server_conf_t × World :=
  let g := recv_greeting x ndebug n1 toks1 req w
  if g.1 < 0 then process_err conf g.2.1 g.2.2
  else
    let r := recv_req x n2 toks2 g.2.1 g.2.2
    if r.1 < 0 then process_err conf r.2.1 r.2.2
    else
      let q := query_consoles x conf r.2.1 r.2.2
      if q.1 < 0 then process_err conf q.2.1 q.2.2
      else
        let v := validate_req q.2.1 q.2.2
        if v.1 < 0 then process_err conf q.2.1 v.2
        else ((dispatch q.2.1 conf v.2).2.1, (dispatch q.2.1 conf v.2).2.2)

/-- `process_client(conf)`, lines 57-160, from the point where `accept` has returned the
descriptor `sd`: `ip` is the string `inet_ntop` makes of the peer address and `host` what
`get_hostname_via_addr` finds for it, if anything. -/
def process_client {Rex : Type} (x : Ext Rex) (ndebug : Bool) (conf : server_conf_t)
    (sd : Int) (ip : List Char) (host : Option (List Char))
    (n1 : Int) (toks1 : List Tok) (n2 : Int) (toks2 : List Tok) (w : World) :
    server_conf_t × World :=
  match create_req sd w with
  | (none, w1) => (conf, w1.close sd)
  | (some req, w1) =>
    if w1.alloc.1 = false then process_err conf req w1.alloc.2
    else
      match host with
      | none =>
        process_session x ndebug conf { req with ip := some ip } n1 toks1 n2 toks2 w1.alloc.2
      | some h =>
        if w1.alloc.2.alloc.1 = false then
          process_err conf { req with ip := some ip } w1.alloc.2.alloc.2
        else
          process_session x ndebug conf { req with ip := some ip, host := some h }
            n1 toks1 n2 toks2 w1.alloc.2.alloc.2

/-! ## A regex library for the examples

The theorems on `query_consoles` hold for every `x : Ext Rex`. The closed examples need one:
`ere` below covers the fragment of POSIX extended regular expressions built from ordinary
characters, `.`, `*`, `+`, `?`, `|`, parentheses and backslash escapes, matched as
`REG_EXTENDED | REG_ICASE | REG_NOSUB | REG_NEWLINE` asks: case ignored, a match anywhere in
the string, `.` not matching a newline. Anchors, bracket expressions and interval
expressions are outside the fragment; `ere` answers them with `REG_BADPAT`. -/

/-- The return code `REG_BADPAT` of `regcomp`. -/
def REG_BADPAT : Nat := 2
/-- The return code `REG_EESCAPE` of `regcomp`: a trailing backslash. -/
def REG_EESCAPE : Nat := 5
/-- The return code `REG_EPAREN` of `regcomp`: an unmatched parenthesis. -/
def REG_EPAREN : Nat := 8
/-- The return code `REG_BADRPT` of `regcomp`: a repetition operator with nothing before. -/
def REG_BADRPT : Nat := 13

/-- A compiled expression of the fragment. -/
inductive Re
  | nothing
  | empty
  | chr (c : Char)
  | any
  | alt (a b : Re)
  | seq (a b : Re)
  | star (a : Re)
  deriving DecidableEq, Repr

/-- Whether the expression matches the empty string. -/
def Re.nullable : Re → Bool
  | .nothing => false
  | .empty => true
  | .chr _ => false
  | .any => false
  | .alt a b => a.nullable || b.nullable
  | .seq a b => a.nullable && b.nullable
  | .star _ => true

/-- The expression for what may follow the character `d`. -/
def Re.deriv (d : Char) : Re → Re
  | .nothing => .nothing
  | .empty => .nothing
  | .chr c => if c.toLower = d.toLower then .empty else .nothing
  | .any => if d = NL then .nothing else .empty
  | .alt a b => .alt (a.deriv d) (b.deriv d)
  | .seq a b =>
    if a.nullable then .alt (.seq (a.deriv d) b) (b.deriv d) else .seq (a.deriv d) b
  | .star a => .seq (a.deriv d) (.star a)

/-- Whether the expression matches some initial part of the string. -/
def Re.matches_head : Re → List Char → Bool
  | r, [] => r.nullable
  | r, c :: s => r.nullable || (r.deriv c).matches_head s

/-- Whether the expression matches somewhere in the string. -/
def Re.search (r : Re) : List Char → Bool
  | [] => r.nullable
  | c :: s => r.matches_head (c :: s) || r.search s

/-- The concatenation of the pieces of a branch, given last piece first. -/
def Re.of_branch : List Re → Re
  | [] => .empty
  | a :: rest => rest.foldl (fun acc r => Re.seq r acc) a

/-- The alternation of the finished branches, given last branch first, and the current one. -/
def Re.of_branches (done : List Re) (cur : Re) : Re :=
  done.foldl (fun acc r => Re.alt r acc) cur

/-- The parser of the fragment: the characters still to read, the finished branches and the
pieces of the current branch at this nesting level, and the same for each enclosing
parenthesis. -/
def ere_parse : List Char → List Re → List Re → List (List Re × List Re) → Except Nat Re
  | [], done, cur, [] => .ok (Re.of_branches done (Re.of_branch cur))
  | [], _, _, _ :: _ => .error REG_EPAREN
  | c :: cs, done, cur, stack =>
    if c = '(' then ere_parse cs [] [] ((done, cur) :: stack)
    else if c = ')' then
      match stack with
      | [] => ere_parse cs done (Re.chr c :: cur) []
      | (d0, c0) :: st => ere_parse cs d0 (Re.of_branches done (Re.of_branch cur) :: c0) st
    else if c = '|' then ere_parse cs (Re.of_branch cur :: done) [] stack
    else if c = '*' then
      match cur with
      | [] => .error REG_BADRPT
      | a :: rest => ere_parse cs done (Re.star a :: rest) stack
    else if c = '+' then
      match cur with
      | [] => .error REG_BADRPT
      | a :: rest => ere_parse cs done (Re.seq a (Re.star a) :: rest) stack
    else if c = '?' then
      match cur with
      | [] => .error REG_BADRPT
      | a :: rest => ere_parse cs done (Re.alt a Re.empty :: rest) stack
    else if c = '.' then ere_parse cs done (Re.any :: cur) stack
    else if c = Char.ofNat 92 then
      match cs with
      | [] => .error REG_EESCAPE
      | d :: ds => ere_parse ds done (Re.chr d :: cur) stack
    else if c = '[' ∨ c = '{' ∨ c = '^' ∨ c = '$' then .error REG_BADPAT
    else ere_parse cs done (Re.chr c :: cur) stack

/-- The diagnostics of `regerror` for the codes of the fragment. -/
def ere_error (rc : Nat) : List Char :=
  if rc = REG_EPAREN then "Unmatched ( or \\(".toList
  else if rc = REG_BADRPT then "Invalid preceding regular expression".toList
  else if rc = REG_EESCAPE then "Trailing backslash".toList
  else "Invalid regular expression".toList

/-- Modelled from the spec: the string coding of the lexer (lex.c is not among the sources),
section 4.1: a backslash before a single quote or a backslash. This is `lex_encode`. -/
def spec_encode : List Char → List Char
  | [] => []
  | c :: s =>
    if c = SQUOTE ∨ c = Char.ofNat 92 then Char.ofNat 92 :: c :: spec_encode s
    else c :: spec_encode s

/-- Modelled from the spec: `lex_decode`, the inverse of `spec_encode`: a backslash is
dropped and the character after it kept. -/
def spec_decode : List Char → List Char
  | [] => []
  | [c] => [c]
  | c :: d :: s => if c = Char.ofNat 92 then d :: spec_decode s else c :: spec_decode (d :: s)

/-- The library of the examples. -/
def ere : Ext Re where
  lex_decode := spec_decode
  lex_encode := spec_encode
  regcomp := fun src => ere_parse src [] [] []
  regexec := fun r s => r.search s
  regerror := ere_error

/-! ## The wording of the claims -/

/-- The test of lines 518-520 on an object of the registry: it is a console and `regexec`
finds a match in its name. -/
def console_matches {Rex : Type} (x : Ext Rex) (rex : Rex) (o : obj_t) : Bool :=
  decide (o.type = obj_type.CONSOLE) && x.regexec rex o.name

/-- The wording of the resolver property: the name is matched by at least one pattern of
the list, each pattern compiled on its own. -/
def matches_some_pattern {Rex : Type} (x : Ext Rex) (ps : List (List Char))
    (name : List Char) : Bool :=
  ps.any fun p =>
    match x.regcomp p with
    | .ok rex => x.regexec rex name
    | .error _ => false

/-- The wording of the glob translation rule of section 4.5: `*` becomes `.*`, `?` becomes
`.`, every other regex metacharacter gets a backslash before it. -/
def glob_translate : List Char → List Char
  | [] => []
  | c :: s =>
    if c = '*' then '.' :: '*' :: glob_translate s
    else if c = '?' then '.' :: glob_translate s
    else if c ∈ ['.', '[', ']', '(', ')', '{', '}', '^', '$', '+', '|', Char.ofNat 92] then
      Char.ofNat 92 :: c :: glob_translate s
    else c :: glob_translate s

/-- The wording of section 4.5 for the string to compile: the translated patterns joined
with `|`. -/
def glob_source (ps : List (List Char)) : List Char :=
  List.intercalate ['|'] (ps.map glob_translate)

/-- The wording "lexes to `HELLO USER='<string>'`": the four tokens, with or without the
newline after them. -/
def lexes_to_hello : List Tok → Bool
  | [t, t1, t2, Tok.STR _] => t = Tok.KW .HELLO && t1 = Tok.KW .USER && t2 = Tok.CHR '='
  | [t, t1, t2, Tok.STR _, t4] =>
    t = Tok.KW .HELLO && t1 = Tok.KW .USER && t2 = Tok.CHR '=' && t4 = Tok.EOL
  | _ => false

/-- Whether the tokens begin with a clause `USER='s'` whose string is not empty. -/
def starts_user_clause : List Tok → Bool
  | t :: t1 :: Tok.STR s :: _ => t = Tok.KW .USER && t1 = Tok.CHR '=' && !s.isEmpty
  | _ => false

/-- Whether a clause `USER='s'` with a non-empty string occurs among the tokens. -/
def has_user_clause : List Tok → Bool
  | [] => false
  | t :: l => starts_user_clause (t :: l) || has_user_clause l

/-- Whether a clause `USER='s'` with a non-empty string occurs after a `HELLO` keyword. -/
def has_greeting : List Tok → Bool
  | [] => false
  | t :: l => (t = Tok.KW .HELLO && has_user_clause l) || has_greeting l

/-- The tokens of the line `HELLO USER='user'`. -/
def hello_line (user : String) : List Tok :=
  [Tok.KW .HELLO, Tok.KW .USER, Tok.CHR '=', Tok.STR user.toList, Tok.EOL]

/-- The wording "loopback address" for the dotted-quad string of an IPv4 peer: an address of
the block 127.0.0.0/8. -/
def is_loopback (ip : List Char) : Bool :=
  ip.take 4 = ['1', '2', '7', '.']

/-- A well-formed option clause of a request line, section 6: `CONSOLE='pat'`, `OPTION=k`
for a keyword `k` (the grammar has FORCE, BROADCAST, JOIN, REGEX and QUIET), or
`PROGRAM='s'`. -/
inductive Clause
  | console (pat : List Char)
  | option (k : proto_toks)
  | program (s : List Char)
  deriving DecidableEq, Repr

/-- The tokens of a clause. -/
def Clause.tokens : Clause → List Tok
  | .console pat => [Tok.KW .CONSOLE, Tok.CHR '=', Tok.STR pat]
  | .option k => [Tok.KW .OPTION, Tok.CHR '=', Tok.KW k]
  | .program s => [Tok.KW .PROGRAM, Tok.CHR '=', Tok.STR s]

/-- The tokens of a sequence of clauses. -/
def clause_tokens : List Clause → List Tok
  | [] => []
  | c :: cs => c.tokens ++ clause_tokens cs

/-- Whether the clause `OPTION=k` occurs among the clauses. -/
def has_option (k : proto_toks) (cs : List Clause) : Bool :=
  cs.any (fun c => decide (c = Clause.option k))

/-- The decoded strings of the `CONSOLE` clauses with a non-empty pattern, in order of
occurrence. -/
def clause_patterns (decode : List Char → List Char) : List Clause → List (List Char)
  | [] => []
  | .console pat :: cs =>
    if pat ≠ [] then decode pat :: clause_patterns decode cs else clause_patterns decode cs
  | .option _ :: cs => clause_patterns decode cs
  | .program _ :: cs => clause_patterns decode cs

/-- The decoded string of the last `PROGRAM` clause with a non-empty string, or `init` when
there is none. -/
def clause_program (decode : List Char → List Char) :
    Option (List Char) → List Clause → Option (List Char)
  | init, [] => init
  | init, .program s :: cs =>
    if s ≠ [] then clause_program decode (some (decode s)) cs
    else clause_program decode init cs
  | init, .console _ :: cs => clause_program decode init cs
  | init, .option _ :: cs => clause_program decode init cs

/-- Whether a clause is a `PROGRAM` clause. -/
def Clause.is_program : Clause → Bool
  | .program _ => true
  | _ => false

/-- Whether no `switch` of `recv_req` and `parse_cmd_opts` has a case for the token: it is
not a command keyword, not `CONSOLE`, `OPTION` or `PROGRAM`, and not the end of the line. -/
def unrecognised (t : Tok) : Bool :=
  (command_of t).isNone && decide (t ≠ Tok.KW .CONSOLE) && decide (t ≠ Tok.KW .OPTION)
    && decide (t ≠ Tok.KW .PROGRAM) && decide (t ≠ Tok.EOL)

/-- A piece of a request line: a complete clause, or a single token between clauses. -/
inductive Item
  | clause (c : Clause)
  | other (t : Tok)
  deriving DecidableEq, Repr

/-- The tokens of a sequence of pieces. -/
def item_tokens : List Item → List Tok
  | [] => []
  | .clause c :: l => c.tokens ++ item_tokens l
  | .other t :: l => t :: item_tokens l

/-- The clauses among the pieces. -/
def item_clauses : List Item → List Clause
  | [] => []
  | .clause c :: l => c :: item_clauses l
  | .other _ :: l => item_clauses l

/-- Whether every single token among the pieces is unrecognised. -/
def items_unrecognised : List Item → Bool
  | [] => true
  | .clause _ :: l => items_unrecognised l
  | .other t :: l => unrecognised t && items_unrecognised l

/-! ## copy_hostent (util-net.c) -/

/-- `struct hostent` of netdb.h: the name, the aliases (the strings before the `NULL` that
ends `h_aliases`), the address type, the length of an address, and the addresses (the
entries before the `NULL` that ends `h_addr_list`). -/
structure hostent where
  h_name : List Char
  h_aliases : List (List Char)
  h_addrtype : Int
  h_length : Int
  h_addr_list : List (List Char)
  deriving DecidableEq, Repr

/-- The two sizes of the platform that `copy_hostent` uses: `sizeof(struct hostent)` and
`sizeof(char *)`. -/
structure Abi where
  sizeof_hostent : Nat
  sizeof_ptr : Nat
  deriving DecidableEq, Repr

/-- The largest `int`. -/
def INT_MAX : Int := 2147483647

/-- The value an `int` of 32 bits takes when it is assigned the integer `z`. -/
def to_int (z : Int) : Int := (z + 2147483648) % 4294967296 - 2147483648

/-- The number of bytes `strlcpy(dst, src, size)` writes to `dst`: as much of `src` as
`size - 1` bytes allow and the NUL after it, nothing when `size` is 0. -/
def strlcpy_count (src : List Char) (size : Int) : Int :=
  if 0 < size then min (src.length : Int) (size - 1) + 1 else 0

/-- The loop of lines 213-219 over `h_addr_list`. `slot` is the offset of `*q` in the
buffer, `len` the bytes left and `off` the offset of `buf`. The result is `len` and the
offset of `buf` after the loop, or `none` when the loop returns -1, and the writes made,
each by its offset and its number of bytes: the `memcpy` of an address and the pointer
stored in `*q`, and at the end the `NULL` of line 220. -/
def copy_addrs (h_length : Int) (P : Int) :
    List (List Char) → Int → Int → Int → Option (Int × Int) × List (Int × Int)
  | [], slot, len, off => (some (len, off), [(slot, P)])
  | _ :: rest, slot, len, off =>
    if to_int (len - h_length) < 0 then (none, [])
    else
      ((copy_addrs h_length P rest (slot + P) (to_int (len - h_length)) (off + h_length)).1,
        (off, h_length) :: (slot, P) ::
          (copy_addrs h_length P rest (slot + P) (to_int (len - h_length))
            (off + h_length)).2)

/-- The loop of lines 224-230 over `h_aliases`, with the `NULL` of line 231 at the end:
the result is as for `copy_addrs`. The write of `strlcpy` and the pointer stored in `*q`
come before the test of `len`. -/
def copy_aliases (P : Int) :
    List (List Char) → Int → Int → Int → Option (Int × Int) × List (Int × Int)
  | [], slot, len, off => (some (len, off), [(slot, P)])
  | a :: rest, slot, len, off =>
    if to_int (len - to_int (a.length + 1)) < 0 then
      (none, [(off, strlcpy_count a len), (slot, P)])
    else
      ((copy_aliases P rest (slot + P) (to_int (len - to_int (a.length + 1)))
          (off + to_int (a.length + 1))).1,
        (off, strlcpy_count a len) :: (slot, P) ::
          (copy_aliases P rest (slot + P) (to_int (len - to_int (a.length + 1)))
            (off + to_int (a.length + 1))).2)

/-- `copy_hostent(src, buf, len)`: lines 177-250. The result is the return value and the
writes made to the buffer, each by its offset and its number of bytes; the stores to the
fields of `*dst` count as one write of the `sizeof(struct hostent)` bytes at offset 0. The
counts of aliases and of addresses are taken to fit an `int`. -/
def copy_hostent (abi : Abi) (src : hostent) (len : Int) : Int × List (Int × Int) :=
  let S : Int := abi.sizeof_hostent
  let P : Int := abi.sizeof_ptr
  let a : Int := src.h_aliases.length
  let d : Int := src.h_addr_list.length
  let len1 := to_int (len - S)
  if len1 < 0 then (-1, [])
  else
    let len2 := to_int (len1 - (a + 1) * P)
    if len2 < 0 then (-1, [(0, S)])
    else
      let len3 := to_int (len2 - (d + 1) * P)
      if len3 < 0 then (-1, [(0, S)])
      else
        let r := copy_addrs src.h_length P src.h_addr_list (S + (a + 1) * P) len3
          (S + (a + 1) * P + (d + 1) * P)
        match r.1 with
        | none => (-1, (0, S) :: r.2)
        | some (len4, off4) =>
          let q := copy_aliases P src.h_aliases S len4 off4
          match q.1 with
          | none => (-1, (0, S) :: (r.2 ++ q.2))
          | some (len5, off5) =>
            if to_int (len5 - to_int (src.h_name.length + 1)) < 0 then
              (-1, (0, S) :: (r.2 ++ q.2 ++ [(off5, strlcpy_count src.h_name len5)]))
            else
              (0, (0, S) :: (r.2 ++ q.2 ++ [(off5, strlcpy_count src.h_name len5)]))

/-- The bytes the addresses of a list take, each of `h_length` bytes. -/
def addrs_size (h_length : Int) : List (List Char) → Int
  | [] => 0
  | _ :: rest => h_length + addrs_size h_length rest

/-- The bytes an array of pointers takes that has one entry for each item of the list and
one for the `NULL` at its end. -/
def ptrs_size (P : Int) : List (List Char) → Int
  | [] => P
  | _ :: rest => P + ptrs_size P rest

/-- The bytes the strings of a list take with their NULs. -/
def strings_size : List (List Char) → Int
  | [] => 0
  | a :: rest => (a.length + 1) + strings_size rest

/-- The size the claim gives for the copy of a hostent: the struct, the two arrays of
pointers with their `NULL`, the addresses, the aliases and the name with their NULs. -/
def hostent_size (abi : Abi) (src : hostent) : Int :=
  abi.sizeof_hostent
    + ((src.h_aliases.length : Int) + 1 + (src.h_addr_list.length : Int) + 1) * abi.sizeof_ptr
    + (src.h_addr_list.length : Int) * src.h_length
    + strings_size src.h_aliases + (src.h_name.length + 1)

/-- Whether a write, given by its offset and its number of bytes, stays within the first
`len` bytes of the buffer: it writes no byte, or all its bytes have offsets from 0 up to
`len - 1`. -/
def write_within (len : Int) (wr : Int × Int) : Prop :=
  wr.2 ≤ 0 ∨ (0 ≤ wr.1 ∧ wr.1 + wr.2 ≤ len)

/-- The sizes of a platform with 64-bit pointers. -/
def lp64 : Abi := { sizeof_hostent := 32, sizeof_ptr := 8 }

/-- A hostent with one alias and two IPv4 addresses. -/
def hostent0 : hostent :=
  { h_name := "host".toList, h_aliases := ["h".toList], h_addrtype := 2, h_length := 4,
    h_addr_list := [[Char.ofNat 127, Char.ofNat 0, Char.ofNat 0, Char.ofNat 1],
                    [Char.ofNat 10, Char.ofNat 0, Char.ofNat 0, Char.ofNat 5]] }

/-! ## Inputs of the examples -/

/-- A world in which no allocation and no write fails, and nothing has happened yet. -/
def world0 : World := { allocs := [], writes := [], trace := [] }

/-- The request `create_req(3)` makes, with the address `process_client` stores in it. -/
def request0 (ip : String) : req_t :=
  { sd := 3, ip := some ip.toList, host := none, user := none, command := cmd_t.NONE,
    enableBroadcast := 0, enableForce := 0, program := none, consoles := .strs [] }

/-- A console object with no writer and no reader. -/
def console0 (id : Nat) (name : String) : obj_t :=
  { id := id, name := name.toList, type := obj_type.CONSOLE, writer := none, readers := [] }

/-- A registry of two consoles, `a` and `b`, and the logfile `a.log`. -/
def conf0 : server_conf_t :=
  { ld := 0,
    objs := [console0 1 "a", console0 2 "b",
      { id := 3, name := "a.log".toList, type := obj_type.LOGFILE, writer := none,
        readers := [] }] }

/-- A registry whose one console, `a`, has the object 9 as its writer. -/
def conf_busy : server_conf_t :=
  { ld := 0, objs := [{ console0 1 "a" with writer := some 9 }] }

/-- The tokens of a clause `CONSOLE='pat'`. -/
def console_clause (pat : String) : List Tok :=
  [Tok.KW .CONSOLE, Tok.CHR '=', Tok.STR pat.toList]

/-! ## Lemmas -/

theorem set_last_two {α : Type} (a b : α) :
    ∀ (k : Nat) (l : List α), l.length = k + 2 → (l.set k a).set (k + 1) b = l.take k ++ [a, b]
  | 0, l, h => by
    match l, h with
    | [x, y], _ => simp
  | k + 1, l, h => by
    match l, h with
    | x :: l', h' =>
      have h'' : l'.length = k + 2 := by simpa using h'
      simp [List.set, set_last_two a b k l' h'']

theorem alloc_of_nil (w : World) (h : w.allocs = []) : w.alloc = (true, w) := by
  simp [World.alloc, h]

theorem fmt_d_digit (n : Int) (h1 : 1 ≤ n) (h2 : n ≤ 8) :
    fmt_d n = [Char.ofNat (48 + n.toNat)] := by
  interval_cases n <;> rfl

theorem rsp_line_of_fits (n : Int) (m : Option (List Char))
    (h : (rsp_format n m).length < MAX_SOCK_LINE) : rsp_line n m = rsp_format n m := by
  have h2 : ¬ ((MAX_SOCK_LINE : Int) ≤ ((rsp_format n m).length : Int)) := by
    omega
  simp only [rsp_line, snprintf, ge_iff_le, h2, or_false]
  rw [if_neg (by omega)]
  exact List.take_of_length_le (by omega)

theorem rsp_line_of_overrun (n : Int) (m : Option (List Char))
    (h : MAX_SOCK_LINE ≤ (rsp_format n m).length) :
    rsp_line n m = (rsp_format n m).take (MAX_SOCK_LINE - 3) ++ [DQUOTE, NL] := by
  have h2 : ((MAX_SOCK_LINE : Int) ≤ ((rsp_format n m).length : Int)) := by
    omega
  simp only [rsp_line, snprintf, ge_iff_le, h2, or_true, if_true]
  unfold MAX_SOCK_LINE at *
  generalize rsp_format n m = f at *
  have hl : (List.take (8192 - 1) f).length = 8189 + 2 := by simp; omega
  have e := set_last_two DQUOTE NL 8189 _ hl
  have e3 : 8192 - 3 = 8189 := rfl
  have e2 : 8192 - 2 = 8189 + 1 := rfl
  rw [e3, e2, e, List.take_take]
  rw [List.take_of_length_le]
  · rfl
  · simp

theorem rsp_format_error (n : Int) (m : List Char) (hn : n ≠ 0) :
    rsp_format n (some m)
      = "ERROR CODE=".toList ++ fmt_d n ++ " MESSAGE='".toList ++ m ++ "'\n".toList := by
  have e1 : "ERROR CODE=".toList = ['E','R','R','O','R',' ','C','O','D','E','='] := rfl
  have e2 : " MESSAGE='".toList = [' ','M','E','S','S','A','G','E','=', SQUOTE] := rfl
  have e3 : "'\n".toList = [SQUOTE, NL] := rfl
  rw [e1, e2, e3]
  simp [rsp_format, CONMAN_ERR_NONE, hn, proto_strs]

theorem rsp_format_error_length (n : Int) (m : List Char) (hn : n ≠ 0) :
    (rsp_format n (some m)).length = (fmt_d n).length + m.length + 23 := by
  simp [rsp_format, CONMAN_ERR_NONE, hn, proto_strs]
  omega

theorem rsp_line_error (n : Int) (m : List Char) (hn : n ≠ 0)
    (hfit : (fmt_d n).length + m.length + 23 < MAX_SOCK_LINE) :
    rsp_line n (some m)
      = "ERROR CODE=".toList ++ fmt_d n ++ " MESSAGE='".toList ++ m ++ "'\n".toList := by
  rw [rsp_line_of_fits n (some m) (by rw [rsp_format_error_length n m hn]; exact hfit),
    rsp_format_error n m hn]

theorem send_rsp_trace (req : req_t) (n : Int) (m : Option (List Char)) (w : World) :
    (send_rsp req n m w).2.trace = w.trace ++ [Event.write req.sd (rsp_line n m) w.write_ok] := by
  unfold send_rsp write_n
  split <;> rfl

theorem send_rsp_rc (req : req_t) (n : Int) (m : Option (List Char)) (w : World) :
    (send_rsp req n m w).1 = if w.write_ok then 0 else -1 := by
  unfold send_rsp write_n
  cases w.write_ok
  · simp
  · have h : ¬ (((rsp_line n m).length : Int) < 0) := by omega
    simp [h]

theorem take_take_append {α : Type} (n : Nat) (a b : List α) :
    (a.take n ++ b).take n = (a ++ b).take n := by
  by_cases h : a.length ≤ n
  · rw [List.take_of_length_le h]
  · have h' : n ≤ a.length := by omega
    rw [List.take_append_of_le_length h', List.take_append_of_le_length (by simp; omega),
      List.take_take, Nat.min_self]

theorem strlcat_eq (dst src : List Char) (h : dst.length < MAX_BUF_SIZE) :
    strlcat dst src MAX_BUF_SIZE = (dst ++ src).take (MAX_BUF_SIZE - 1) := by
  unfold strlcat
  rw [if_neg (by omega)]

theorem query_buf_fold (ps : List (List Char)) :
    ∀ (full : List Char),
      ps.foldl (fun buf q => strlcat (strlcat buf ['|'] MAX_BUF_SIZE) q MAX_BUF_SIZE)
        (full.take (MAX_BUF_SIZE - 1))
      = (full ++ (ps.map (fun q => '|' :: q)).flatten).take (MAX_BUF_SIZE - 1) := by
  induction ps with
  | nil => intro full; simp
  | cons q ps ih =>
    intro full
    have h1 : (full.take (MAX_BUF_SIZE - 1)).length < MAX_BUF_SIZE := by
      simp [MAX_BUF_SIZE]
    have h2 : ((List.take (MAX_BUF_SIZE - 1) full ++ ['|']).take (MAX_BUF_SIZE - 1)).length
        < MAX_BUF_SIZE := by
      simp [MAX_BUF_SIZE]
    simp only [List.foldl_cons, List.map_cons, List.flatten_cons]
    rw [strlcat_eq _ _ h1, strlcat_eq _ _ h2, take_take_append, List.append_assoc,
      take_take_append, ← List.append_assoc, ih (full ++ ['|'] ++ q)]
    simp

theorem intercalate_cons (sep : List Char) (p : List Char) (ps : List (List Char)) :
    List.intercalate sep (p :: ps) = p ++ (ps.map (fun q => sep ++ q)).flatten := by
  induction ps generalizing p with
  | nil => simp [List.intercalate]
  | cons q ps ih =>
    have := ih q
    simp only [List.intercalate] at this ⊢
    simp [this]

theorem query_buf_eq (ps : List (List Char)) (h : ps ≠ []) :
    query_buf ps = (List.intercalate ['|'] ps).take (MAX_BUF_SIZE - 1) := by
  match ps, h with
  | p :: ps, _ =>
    simp only [query_buf, strlcpy]
    rw [query_buf_fold, intercalate_cons]
    rfl

theorem alloc_writes (w : World) : w.alloc.2.writes = w.writes := by
  unfold World.alloc; split <;> rfl

theorem alloc_trace (w : World) : w.alloc.2.trace = w.trace := by
  unfold World.alloc; split <;> rfl

theorem alloc_write_ok (w : World) : w.alloc.2.write_ok = w.write_ok := by
  simp [World.write_ok, alloc_writes]

theorem match_objs_some {Rex : Type} (x : Ext Rex) (rex : Rex) (objs : List obj_t) :
    ∀ (acc : List obj_t) (w : World) (ms : List obj_t) (w1 : World),
      match_objs x rex objs acc w = (some ms, w1) →
      ms = acc ++ objs.filter (console_matches x rex) := by
  induction objs with
  | nil => intro acc w ms w1 h; simp [match_objs] at h; simp [h.1]
  | cons o rest ih =>
    intro acc w ms w1 h
    unfold match_objs at h
    by_cases ht : o.type = obj_type.CONSOLE
    · by_cases hm : x.regexec rex o.name = true
      · by_cases ha : w.alloc.1 = false
        · simp [ht, hm, ha] at h
        · simp only [ht, hm, ha, ne_eq, not_true_eq_false, if_false, if_true] at h
          rw [ih _ _ _ _ h]
          simp [console_matches, ht, hm]
      · simp only [ht, hm, ne_eq, not_true_eq_false, if_false] at h
        rw [ih _ _ _ _ h]
        simp [console_matches, ht, hm]
    · simp only [ht, ne_eq, not_false_eq_true, if_true] at h
      rw [ih _ _ _ _ h]
      simp [console_matches, ht]

theorem match_objs_of_nil {Rex : Type} (x : Ext Rex) (rex : Rex) (objs : List obj_t) :
    ∀ (acc : List obj_t) (w : World), w.allocs = [] →
      match_objs x rex objs acc w = (some (acc ++ objs.filter (console_matches x rex)), w) := by
  induction objs with
  | nil => intro acc w _; simp [match_objs]
  | cons o rest ih =>
    intro acc w hw
    unfold match_objs
    rw [alloc_of_nil w hw]
    by_cases ht : o.type = obj_type.CONSOLE
    · by_cases hm : x.regexec rex o.name = true
      · simp [ht, hm, ih _ w hw, console_matches]
      · simp [ht, hm, ih _ w hw, console_matches]
    · simp [ht, ih _ w hw, console_matches]

theorem query_resolve_ok {Rex : Type} (x : Ext Rex) (conf : server_conf_t)
    (ps : List (List Char)) (req : req_t) (w : World)
    (h : (query_resolve x conf ps req w).1 = 0) :
    ∃ rex, x.regcomp (query_buf ps) = .ok rex ∧
      (query_resolve x conf ps req w).2.1
        = { req with consoles := .objs (conf.objs.filter (console_matches x rex)) } := by
  unfold query_resolve at h ⊢
  by_cases h1 : w.alloc.1 = false
  · simp [h1, query_no_mem] at h
  · simp only [h1, if_false] at h ⊢
    cases hc : x.regcomp (query_buf ps) with
    | error rc => simp [hc] at h
    | ok rex =>
      refine ⟨rex, rfl, ?_⟩
      simp only [hc] at h ⊢
      by_cases h2 : w.alloc.2.alloc.1 = false
      · simp [h2, query_no_mem] at h
      · by_cases h3 : w.alloc.2.alloc.2.alloc.1 = false
        · simp [h2, h3, query_no_mem] at h
        · simp only [h2, h3, if_false] at h ⊢
          cases hm : match_objs x rex conf.objs [] w.alloc.2.alloc.2.alloc.2 with
          | mk r w1 =>
            cases r with
            | none => simp [hm, query_no_mem] at h
            | some ms =>
              have := match_objs_some x rex conf.objs [] _ ms w1 hm
              simp [this]

theorem query_resolve_of_nil {Rex : Type} (x : Ext Rex) (conf : server_conf_t)
    (ps : List (List Char)) (req : req_t) (w : World) (rex : Rex)
    (hc : x.regcomp (query_buf ps) = .ok rex) (hw : w.allocs = []) :
    query_resolve x conf ps req w
      = (0, { req with consoles := .objs (conf.objs.filter (console_matches x rex)) }, w) := by
  unfold query_resolve
  simp [alloc_of_nil w hw, hc, match_objs_of_nil x rex conf.objs [] w hw]

theorem query_consoles_of_strs {Rex : Type} (x : Ext Rex) (conf : server_conf_t) (req : req_t)
    (w : World) (ps : List (List Char)) (hreq : req.consoles = .strs ps) (hps : ps ≠ []) :
    query_consoles x conf req w = query_resolve x conf ps req w := by
  unfold query_consoles
  rw [hreq]
  cases ps with
  | nil => exact absurd rfl hps
  | cons p ps => simp

theorem ere_dot_star (s : List Char) : ere.regexec (Re.star Re.any) s = true := by
  cases s <;> simp [ere, Re.search, Re.matches_head, Re.nullable]

theorem suffix_of_suffix_tail {α : Type} {l' l : List α} (a : α) (h : l' <:+ l) :
    l' <:+ a :: l := h.trans ⟨[a], rfl⟩

/-- What `parse_greeting` leaves in the lexer is an end part of what it found there. -/
theorem parse_greeting_suffix {Rex : Type} (x : Ext Rex) (l : List Tok) (req : req_t)
    (w : World) : (parse_greeting x l req w).2.1 <:+ l := by
  induction l, req, w using parse_greeting.induct x
  all_goals unfold parse_greeting
  all_goals simp only [*, if_true, if_false, ne_eq, not_true_eq_false, not_false_eq_true,
    reduceCtorEq]
  all_goals first
    | exact List.suffix_refl _
    | exact ⟨[_], rfl⟩
    | exact ⟨[_, _], rfl⟩
    | exact ⟨[_, _, _], rfl⟩
    | exact suffix_of_suffix_tail _ (by assumption)
    | exact suffix_of_suffix_tail _ (suffix_of_suffix_tail _ (by assumption))
    | exact suffix_of_suffix_tail _
        (suffix_of_suffix_tail _ (suffix_of_suffix_tail _ (by assumption)))

/-- What `parse_cmd_opts` leaves in the lexer is an end part of what it found there. -/
theorem parse_cmd_opts_suffix {Rex : Type} (x : Ext Rex) (l : List Tok) (req : req_t)
    (w : World) : (parse_cmd_opts x l req w).2.1 <:+ l := by
  induction l, req, w using parse_cmd_opts.induct x
  all_goals unfold parse_cmd_opts
  all_goals simp only [*, if_true, if_false, ne_eq, not_true_eq_false, not_false_eq_true,
    reduceCtorEq]
  all_goals first
    | exact List.suffix_refl _
    | exact ⟨[_], rfl⟩
    | exact ⟨[_, _], rfl⟩
    | exact ⟨[_, _, _], rfl⟩
    | exact suffix_of_suffix_tail _ (by assumption)
    | exact suffix_of_suffix_tail _ (suffix_of_suffix_tail _ (by assumption))
    | exact suffix_of_suffix_tail _
        (suffix_of_suffix_tail _ (suffix_of_suffix_tail _ (by assumption)))

/-- The loop of `recv_greeting` never uses up a fuel above the number of tokens: every such
fuel gives the same result. -/
theorem recv_greeting_loop_fuel {Rex : Type} (x : Ext Rex) :
    ∀ (fuel fuel' : Nat) (toks : List Tok) (req : req_t) (w : World),
      toks.length < fuel → toks.length < fuel' →
      recv_greeting_loop x fuel toks req w = recv_greeting_loop x fuel' toks req w := by
  intro fuel
  induction fuel with
  | zero => intro fuel' toks req w h; omega
  | succ fuel ih =>
    intro fuel' toks req w h h'
    match fuel', h' with
    | fuel' + 1, h' =>
      match toks, h, h' with
      | [], _, _ => simp [recv_greeting_loop]
      | t :: l, h, h' =>
        have hl : l.length < fuel := by simpa using h
        have hl' : l.length < fuel' := by simpa using h'
        have hs := (parse_greeting_suffix x l req w).length_le
        unfold recv_greeting_loop
        rw [ih fuel' l req w hl hl',
          ih fuel' (parse_greeting x l req w).2.1 _ _ (by omega) (by omega)]

/-- The loop of `recv_req` never uses up a fuel above the number of tokens: every such fuel
gives the same result. -/
theorem recv_req_loop_fuel {Rex : Type} (x : Ext Rex) :
    ∀ (fuel fuel' : Nat) (toks : List Tok) (req : req_t) (w : World),
      toks.length < fuel → toks.length < fuel' →
      recv_req_loop x fuel toks req w = recv_req_loop x fuel' toks req w := by
  intro fuel
  induction fuel with
  | zero => intro fuel' toks req w h; omega
  | succ fuel ih =>
    intro fuel' toks req w h h'
    match fuel', h' with
    | fuel' + 1, h' =>
      match toks, h, h' with
      | [], _, _ => simp [recv_req_loop]
      | t :: l, h, h' =>
        have hl : l.length < fuel := by simpa using h
        have hl' : l.length < fuel' := by simpa using h'
        unfold recv_req_loop
        cases hc : command_of t with
        | none => simp only [ih fuel' l req w hl hl']
        | some c =>
          have hs := (parse_cmd_opts_suffix x l { req with command := c } w).length_le
          simp only [ih fuel' (parse_cmd_opts x l { req with command := c } w).2.1 _ _
            (by omega) (by omega)]

theorem has_user_clause_tail (t : Tok) (l : List Tok) (h : has_user_clause (t :: l) = false) :
    has_user_clause l = false := by
  simp only [has_user_clause, Bool.or_eq_false_iff] at h
  exact h.2

theorem has_greeting_tail (t : Tok) (l : List Tok) (h : has_greeting (t :: l) = false) :
    has_greeting l = false := by
  simp only [has_greeting, Bool.or_eq_false_iff] at h
  exact h.2

theorem has_greeting_suffix (l' l : List Tok) (hs : l' <:+ l) (h : has_greeting l = false) :
    has_greeting l' = false := by
  obtain ⟨pre, rfl⟩ := hs
  induction pre with
  | nil => simpa using h
  | cons t pre ih => exact ih (has_greeting_tail t _ h)

theorem parse_greeting_no_clause {Rex : Type} (x : Ext Rex) (req : req_t) (w : World) :
    ∀ (n : Nat) (l : List Tok), l.length ≤ n → has_user_clause l = false →
      ∃ l', parse_greeting x l req w = (0, l', req, w) ∧ l' <:+ l := by
  intro n
  induction n with
  | zero =>
    intro l hl _
    have : l = [] := List.length_eq_zero.mp (by omega)
    subst this
    exact ⟨[], by simp [parse_greeting], List.suffix_refl _⟩
  | succ n ih =>
    intro l hl h
    match l, hl, h with
    | [], _, _ => exact ⟨[], by simp [parse_greeting], List.suffix_refl _⟩
    | t :: l, hl, h =>
      have hl' : l.length ≤ n := by simpa using hl
      have htail := has_user_clause_tail t l h
      unfold parse_greeting
      by_cases hu : t = Tok.KW .USER
      · simp only [hu, if_true]
        match l, hl', htail, h with
        | [], _, _, _ => exact ⟨[], rfl, by simp⟩
        | t1 :: l1, hl1, htail1, h =>
          have hl1' : l1.length ≤ n := by simp at hl1; omega
          have htail2 := has_user_clause_tail t1 l1 htail1
          by_cases he : t1 = Tok.CHR '='
          · simp only [he, if_true]
            match l1, hl1', htail2, h with
            | [], _, _, _ => exact ⟨[], rfl, by simp⟩
            | Tok.STR text :: l2, hl2, htail3, h =>
              have hl2' : l2.length ≤ n := by simp at hl2; omega
              have htext : text = [] := by
                simp [has_user_clause, starts_user_clause, hu, he] at h
                exact h.1
              obtain ⟨l', e, hs⟩ := ih l2 hl2' (has_user_clause_tail _ l2 htail3)
              refine ⟨l', ?_, ?_⟩
              · simp [htext, e]
              · exact hs.trans ⟨[_, _, _], rfl⟩
            | Tok.ERR :: l2, hl2, htail3, _ =>
              have hl2' : l2.length ≤ n := by simp at hl2; omega
              obtain ⟨l', e, hs⟩ := ih l2 hl2' (has_user_clause_tail _ l2 htail3)
              exact ⟨l', by simp [e], hs.trans ⟨[_, _, _], rfl⟩⟩
            | Tok.EOL :: l2, hl2, htail3, _ =>
              have hl2' : l2.length ≤ n := by simp at hl2; omega
              obtain ⟨l', e, hs⟩ := ih l2 hl2' (has_user_clause_tail _ l2 htail3)
              exact ⟨l', by simp [e], hs.trans ⟨[_, _, _], rfl⟩⟩
            | Tok.CHR c :: l2, hl2, htail3, _ =>
              have hl2' : l2.length ≤ n := by simp at hl2; omega
              obtain ⟨l', e, hs⟩ := ih l2 hl2' (has_user_clause_tail _ l2 htail3)
              exact ⟨l', by simp [e], hs.trans ⟨[_, _, _], rfl⟩⟩
            | Tok.KW k :: l2, hl2, htail3, _ =>
              have hl2' : l2.length ≤ n := by simp at hl2; omega
              obtain ⟨l', e, hs⟩ := ih l2 hl2' (has_user_clause_tail _ l2 htail3)
              exact ⟨l', by simp [e], hs.trans ⟨[_, _, _], rfl⟩⟩
          · simp only [he, if_false]
            obtain ⟨l', e, hs⟩ := ih l1 hl1' htail2
            exact ⟨l', e, hs.trans ⟨[_, _], rfl⟩⟩
      · simp only [hu, if_false]
        by_cases hE : t = Tok.EOL
        · simp only [hE, if_true]
          exact ⟨l, rfl, ⟨[_], rfl⟩⟩
        · simp only [hE, if_false]
          obtain ⟨l', e, hs⟩ := ih l hl' htail
          exact ⟨l', e, hs.trans ⟨[_], rfl⟩⟩

theorem recv_greeting_loop_no_greeting {Rex : Type} (x : Ext Rex) (req : req_t) (w : World) :
    ∀ (fuel : Nat) (toks : List Tok), has_greeting toks = false →
      recv_greeting_loop x fuel toks req w = (1, req, w) := by
  intro fuel
  induction fuel with
  | zero => intro toks _; simp [recv_greeting_loop]
  | succ fuel ih =>
    intro toks h
    match toks, h with
    | [], _ => simp [recv_greeting_loop]
    | t :: l, h =>
      unfold recv_greeting_loop
      by_cases hh : t = Tok.KW .HELLO
      · have hc : has_user_clause l = false := by
          simp only [has_greeting, hh, Bool.or_eq_false_iff] at h
          simpa using h.1
        obtain ⟨l', e, hs⟩ := parse_greeting_no_clause x req w l.length l (le_refl _) hc
        simp only [hh, if_true, e, ne_eq, not_true_eq_false, if_false]
        exact ih l' (has_greeting_suffix l' l hs (has_greeting_tail t l h))
      · simp only [hh, if_false]
        by_cases hE : t = Tok.EOL
        · simp [hE]
        · simp only [hE, if_false]
          exact ih l (has_greeting_tail t l h)

theorem recv_greeting_loop_hello {Rex : Type} (x : Ext Rex) (req : req_t) (w : World)
    (s : List Char) (tail : List Tok) (hs : s ≠ []) (ht : tail = [] ∨ tail = [Tok.EOL])
    (hw : w.allocs = []) :
    recv_greeting_loop x
        (([Tok.KW .HELLO, Tok.KW .USER, Tok.CHR '=', Tok.STR s] ++ tail).length + 1)
        ([Tok.KW .HELLO, Tok.KW .USER, Tok.CHR '=', Tok.STR s] ++ tail) req w
      = (1, { req with user := some (x.lex_decode s) }, w) := by
  rcases ht with rfl | rfl <;>
    simp [recv_greeting_loop, parse_greeting, hs, decode_dup, alloc_of_nil w hw]

theorem send_rsp_eq (req : req_t) (n : Int) (m : Option (List Char)) (w : World) :
    send_rsp req n m w
      = (if w.write_ok then 0 else -1,
          { w with writes := w.writes.tail,
                   trace := w.trace ++ [Event.write req.sd (rsp_line n m) w.write_ok] }) := by
  unfold send_rsp write_n
  cases w.write_ok
  · simp
  · have h : ¬ (((rsp_line n m).length : Int) < 0) := by omega
    simp [h]

theorem recv_greeting_of_hello {Rex : Type} (x : Ext Rex) (ndebug : Bool) (n : Int)
    (req : req_t) (w : World) (s : List Char) (tail : List Tok) (hn : 0 < n)
    (hw : w.allocs = []) (hs : s ≠ []) (ht : tail = [] ∨ tail = [Tok.EOL])
    (hip : ndebug = false ∨ req.ip = some LOCALHOST_IP) :
    recv_greeting x ndebug n
        ([Tok.KW .HELLO, Tok.KW .USER, Tok.CHR '=', Tok.STR s] ++ tail) req w
      = (if w.write_ok then 0 else -1, { req with user := some (x.lex_decode s) },
          { w with writes := w.writes.tail,
                   trace := w.trace ++ [Event.write req.sd "OK\n".toList w.write_ok] }) := by
  have hn1 : ¬ n < 0 := by omega
  have hn2 : ¬ n = 0 := by omega
  have e : rsp_line CONMAN_ERR_NONE none = "OK\n".toList := by decide
  unfold recv_greeting
  simp only [hn1, hn2, if_false, alloc_of_nil w hw, Bool.true_eq_false,
    recv_greeting_loop_hello x req w s tail hs ht hw]
  rcases hip with h | h
  · simp [h, send_rsp_eq, e]
  · simp [h, send_rsp_eq, e]

theorem strcasecmp_total : ∀ (a b : List Char), strcasecmp a b ≤ 0 ∨ strcasecmp b a ≤ 0
  | [], [] => by simp [strcasecmp]
  | [], _ :: _ => by simp [strcasecmp]
  | _ :: _, [] => by simp [strcasecmp]
  | a :: s, b :: t => by
    unfold strcasecmp
    by_cases h1 : a.toLower.toNat < b.toLower.toNat
    · simp [h1]
    · by_cases h2 : b.toLower.toNat < a.toLower.toNat
      · simp [h2]
      · simp only [h1, h2, if_false]
        exact strcasecmp_total s t

theorem strcasecmp_trans : ∀ (a b c : List Char),
    strcasecmp a b ≤ 0 → strcasecmp b c ≤ 0 → strcasecmp a c ≤ 0
  | [], _, [] => by simp [strcasecmp]
  | [], _, _ :: _ => by simp [strcasecmp]
  | _ :: _, [], _ => by simp [strcasecmp]
  | _ :: _, _ :: _, [] => by simp [strcasecmp]
  | a :: s, b :: t, c :: u => by
    unfold strcasecmp
    intro hab hbc
    by_cases h1 : a.toLower.toNat < b.toLower.toNat
    · by_cases h2 : b.toLower.toNat < c.toLower.toNat
      · have : a.toLower.toNat < c.toLower.toNat := by omega
        simp [this]
      · by_cases h3 : c.toLower.toNat < b.toLower.toNat
        · simp [h2, h3] at hbc
        · have : a.toLower.toNat < c.toLower.toNat := by omega
          simp [this]
    · by_cases h1' : b.toLower.toNat < a.toLower.toNat
      · simp [h1, h1'] at hab
      · simp only [h1, h1', if_false] at hab
        by_cases h2 : b.toLower.toNat < c.toLower.toNat
        · have : a.toLower.toNat < c.toLower.toNat := by omega
          simp [this]
        · by_cases h3 : c.toLower.toNat < b.toLower.toNat
          · simp [h2, h3] at hbc
          · simp only [h2, h3, if_false] at hbc
            have e1 : ¬ a.toLower.toNat < c.toLower.toNat := by omega
            have e2 : ¬ c.toLower.toNat < a.toLower.toNat := by omega
            simp only [e1, e2, if_false]
            exact strcasecmp_trans s t u hab hbc

theorem list_sort_perm (l : List obj_t) : (list_sort l compare_objs).Perm l :=
  List.perm_insertionSort _ l

theorem list_sort_sorted (l : List obj_t) :
    List.Sorted (fun a b => strcasecmp a.name b.name ≤ 0) (list_sort l compare_objs) := by
  haveI : IsTotal obj_t (fun a b => compare_objs a b ≤ 0) :=
    ⟨fun a b => strcasecmp_total a.name b.name⟩
  haveI : IsTrans obj_t (fun a b => compare_objs a b ≤ 0) :=
    ⟨fun a b c => strcasecmp_trans a.name b.name c.name⟩
  exact List.sorted_insertionSort (fun a b => compare_objs a b ≤ 0) l

theorem query_line_eq (name : List Char) (h : name.length + 1 < MAX_BUF_SIZE) :
    query_line name = name ++ [NL] := by
  unfold query_line strlcpy
  rw [List.take_of_length_le (by omega), strlcat_eq _ _ (by omega),
    List.take_of_length_le (by simp; omega)]

theorem write_n_of_ok (sd : Int) (data : List Char) (w : World)
    (h : ∀ b ∈ w.writes, b = true) :
    write_n sd data w
      = ((data.length : Int), { w with writes := w.writes.tail,
                                       trace := w.trace ++ [Event.write sd data true] }) := by
  have hok : w.write_ok = true := by
    unfold World.write_ok
    cases hw : w.writes with
    | nil => rfl
    | cons b rest => exact h b (by simp [hw])
  simp [write_n, hok]

theorem query_write_loop_of_ok (sd : Int) (objs : List obj_t) :
    ∀ (w : World), (∀ b ∈ w.writes, b = true) →
      (∀ o ∈ objs, o.name.length + 1 < MAX_BUF_SIZE) →
      (query_write_loop sd objs w).trace
        = w.trace ++ objs.map (fun o => Event.write sd (o.name ++ [NL]) true) := by
  induction objs with
  | nil => intro w _ _; simp [query_write_loop]
  | cons o rest ih =>
    intro w hw hl
    have hw' : ∀ b ∈ w.writes.tail, b = true := fun b hb => hw b (List.mem_of_mem_tail hb)
    unfold query_write_loop
    rw [write_n_of_ok sd _ w hw, query_line_eq o.name (hl o (by simp))]
    have hneg : ¬ (((o.name ++ [NL]).length : Int) < 0) := by omega
    simp only [hneg, if_false]
    rw [ih _ hw' (fun o' ho' => hl o' (by simp [ho']))]
    simp

theorem parse_cmd_opts_clauses {Rex : Type} (x : Ext Rex) (w : World) (hw : w.allocs = [])
    (tail : List Tok) (ht : tail = [] ∨ tail = [Tok.EOL]) (cs : List Clause) :
    ∀ (req : req_t) (ps : List (List Char)), req.consoles = .strs ps →
      parse_cmd_opts x (clause_tokens cs ++ tail) req w
        = (0, [], { req with
              enableForce := if has_option .FORCE cs then 1 else req.enableForce,
              enableBroadcast := if has_option .BROADCAST cs then 1 else req.enableBroadcast,
              program := clause_program x.lex_decode req.program cs,
              consoles := .strs (ps ++ clause_patterns x.lex_decode cs) }, w) := by
  induction cs with
  | nil =>
    intro req ps hreq
    rcases ht with rfl | rfl <;>
      simp [clause_tokens, parse_cmd_opts, has_option, clause_program, clause_patterns, ← hreq]
  | cons c cs ih =>
    intro req ps hreq
    cases c with
    | console pat =>
      by_cases hp : pat = []
      · have step : parse_cmd_opts x (clause_tokens (Clause.console pat :: cs) ++ tail) req w
            = parse_cmd_opts x (clause_tokens cs ++ tail) req w := by
          simp [clause_tokens, Clause.tokens, parse_cmd_opts, hp]
        rw [step, ih req ps hreq]
        simp [has_option, clause_program, clause_patterns, hp]
      · have step : parse_cmd_opts x (clause_tokens (Clause.console pat :: cs) ++ tail) req w
            = parse_cmd_opts x (clause_tokens cs ++ tail)
                { req with consoles := .strs (ps ++ [x.lex_decode pat]) } w := by
          simp [clause_tokens, Clause.tokens, parse_cmd_opts, hp, decode_dup,
            alloc_of_nil w hw, hreq]
        rw [step, ih _ (ps ++ [x.lex_decode pat]) rfl]
        simp [has_option, clause_program, clause_patterns, hp]
    | option k =>
      by_cases hf : k = proto_toks.FORCE
      · subst hf
        have step : parse_cmd_opts x
              (clause_tokens (Clause.option proto_toks.FORCE :: cs) ++ tail) req w
            = parse_cmd_opts x (clause_tokens cs ++ tail) { req with enableForce := 1 } w := by
          simp [clause_tokens, Clause.tokens, parse_cmd_opts]
        rw [step, ih { req with enableForce := 1 } ps hreq]
        simp [has_option, clause_program, clause_patterns]
      · by_cases hb : k = proto_toks.BROADCAST
        · subst hb
          have step : parse_cmd_opts x
                (clause_tokens (Clause.option proto_toks.BROADCAST :: cs) ++ tail) req w
              = parse_cmd_opts x (clause_tokens cs ++ tail)
                  { req with enableBroadcast := 1 } w := by
            simp [clause_tokens, Clause.tokens, parse_cmd_opts]
          rw [step, ih { req with enableBroadcast := 1 } ps hreq]
          simp [has_option, clause_program, clause_patterns]
        · have step : parse_cmd_opts x (clause_tokens (Clause.option k :: cs) ++ tail) req w
              = parse_cmd_opts x (clause_tokens cs ++ tail) req w := by
            simp [clause_tokens, Clause.tokens, parse_cmd_opts, hf, hb]
          rw [step, ih req ps hreq]
          simp [has_option, clause_program, clause_patterns, hf, hb]
    | program s =>
      by_cases hp : s = []
      · have step : parse_cmd_opts x (clause_tokens (Clause.program s :: cs) ++ tail) req w
            = parse_cmd_opts x (clause_tokens cs ++ tail) req w := by
          simp [clause_tokens, Clause.tokens, parse_cmd_opts, hp]
        rw [step, ih req ps hreq]
        simp [has_option, clause_program, clause_patterns, hp]
      · have step : parse_cmd_opts x (clause_tokens (Clause.program s :: cs) ++ tail) req w
            = parse_cmd_opts x (clause_tokens cs ++ tail)
                { req with program := some (x.lex_decode s) } w := by
          simp [clause_tokens, Clause.tokens, parse_cmd_opts, hp, decode_dup,
            alloc_of_nil w hw]
        rw [step, ih { req with program := some (x.lex_decode s) } ps hreq]
        simp [has_option, clause_program, clause_patterns, hp]

theorem recv_req_loop_nil {Rex : Type} (x : Ext Rex) (fuel : Nat) (req : req_t) (w : World) :
    recv_req_loop x fuel [] req w = (1, req, w) := by
  cases fuel <;> simp [recv_req_loop]

theorem has_option_perm (k : proto_toks) {cs cs' : List Clause} (h : cs.Perm cs') :
    has_option k cs = has_option k cs' := by
  have e : ∀ l : List Clause, has_option k l = true ↔ Clause.option k ∈ l := by
    intro l; simp [has_option]
  have e2 : has_option k cs = true ↔ has_option k cs' = true := by
    rw [e, e, h.mem_iff]
  cases h1 : has_option k cs <;> cases h2 : has_option k cs' <;> simp_all

theorem clause_patterns_eq (decode : List Char → List Char) (cs : List Clause) :
    clause_patterns decode cs
      = cs.filterMap (fun c => match c with
          | Clause.console pat => if pat ≠ [] then some (decode pat) else none
          | _ => none) := by
  induction cs with
  | nil => rfl
  | cons c cs ih =>
    cases c with
    | console pat =>
      by_cases hp : pat = [] <;> simp [clause_patterns, hp, ih, List.filterMap_cons]
    | option k => simp [clause_patterns, ih, List.filterMap_cons]
    | program s => simp [clause_patterns, ih, List.filterMap_cons]

theorem clause_patterns_perm (decode : List Char → List Char) {cs cs' : List Clause}
    (h : cs.Perm cs') : (clause_patterns decode cs).Perm (clause_patterns decode cs') := by
  rw [clause_patterns_eq, clause_patterns_eq]
  exact h.filterMap _

theorem clause_program_filter (decode : List Char → List Char) (cs : List Clause) :
    ∀ init, clause_program decode init cs
      = clause_program decode init (cs.filter Clause.is_program) := by
  induction cs with
  | nil => intro init; rfl
  | cons c cs ih =>
    intro init
    cases c with
    | console pat => simp [clause_program, Clause.is_program, ih]
    | option k => simp [clause_program, Clause.is_program, ih]
    | program s =>
      by_cases hp : s = [] <;> simp [clause_program, Clause.is_program, hp, ih]

theorem clause_program_perm (decode : List Char → List Char) (init : Option (List Char))
    {cs cs' : List Clause} (h : cs.Perm cs')
    (h1 : (cs.filter Clause.is_program).length ≤ 1) :
    clause_program decode init cs = clause_program decode init cs' := by
  rw [clause_program_filter decode cs, clause_program_filter decode cs']
  have hp := h.filter Clause.is_program
  have e : cs.filter Clause.is_program = cs'.filter Clause.is_program := by
    match hf : cs.filter Clause.is_program, h1 with
    | [], _ => rw [hf] at hp; exact hp.nil_eq
    | [a], _ => rw [hf] at hp; exact List.singleton_perm.mp hp
  rw [e]

theorem alloc_of_all (w : World) (h : ∀ b ∈ w.allocs, b = true) :
    w.alloc.1 = true ∧ ∀ b ∈ w.alloc.2.allocs, b = true := by
  unfold World.alloc
  cases hw : w.allocs with
  | nil => simp [hw]
  | cons b rest =>
    have hb : b = true := h b (by simp [hw])
    refine ⟨by simp [hb], ?_⟩
    intro b' hb'
    exact h b' (by simp [hw]; right; simpa using hb')

theorem decode_dup_of_all {Rex : Type} (x : Ext Rex) (text : List Char) (w : World)
    (h : ∀ b ∈ w.allocs, b = true) :
    (decode_dup x text w).1 = some (x.lex_decode text) ∧
    ∀ b ∈ (decode_dup x text w).2.allocs, b = true := by
  unfold decode_dup
  rw [if_pos (alloc_of_all w h).1]
  exact ⟨rfl, (alloc_of_all w h).2⟩

theorem parse_cmd_opts_rc {Rex : Type} (x : Ext Rex) (l : List Tok) (req : req_t)
    (w : World) (h : ∀ b ∈ w.allocs, b = true) :
    (parse_cmd_opts x l req w).1 = 0 ∧
    ∀ b ∈ (parse_cmd_opts x l req w).2.2.2.allocs, b = true := by
  induction l, req, w using parse_cmd_opts.induct x
  all_goals unfold parse_cmd_opts
  all_goals simp only [*, if_true, if_false, ne_eq, not_true_eq_false, not_false_eq_true,
    reduceCtorEq]
  all_goals first
    | exact ⟨trivial, h⟩
    | (rename_i ih; exact ih h)
    | (rename_i ih; exact ih (decode_dup_of_all x _ _ h).2)
    | (rename_i ih; exact ih (alloc_of_all _ (decode_dup_of_all x _ _ h).2).2)
    | (have hd := fun text => (decode_dup_of_all x text _ h).1
       have ha := fun text => (alloc_of_all _ (decode_dup_of_all x text _ h).2).1
       simp_all)

theorem recv_req_loop_rc {Rex : Type} (x : Ext Rex) :
    ∀ (fuel : Nat) (toks : List Tok) (req : req_t) (w : World),
      (∀ b ∈ w.allocs, b = true) → (recv_req_loop x fuel toks req w).1 = 1 := by
  intro fuel
  induction fuel with
  | zero => intro toks req w _; simp [recv_req_loop]
  | succ fuel ih =>
    intro toks req w h
    match toks with
    | [] => simp [recv_req_loop]
    | t :: l =>
      unfold recv_req_loop
      cases hc : command_of t with
      | none =>
        by_cases hE : t = Tok.EOL
        · simp [hE]
        · simp only [hE, if_false]
          exact ih l req w h
      | some c =>
        have hp := parse_cmd_opts_rc x l { req with command := c } w h
        simp only [hp.1, ne_eq, not_true_eq_false, if_false]
        exact ih _ _ _ hp.2

theorem parse_cmd_opts_items {Rex : Type} (x : Ext Rex) (tail : List Tok) (items : List Item)
    (h : items_unrecognised items = true) :
    ∀ (req : req_t) (w : World),
      (parse_cmd_opts x (item_tokens items ++ tail) req w).1
        = (parse_cmd_opts x (clause_tokens (item_clauses items) ++ tail) req w).1 ∧
      (parse_cmd_opts x (item_tokens items ++ tail) req w).2.2
        = (parse_cmd_opts x (clause_tokens (item_clauses items) ++ tail) req w).2.2 ∧
      ((parse_cmd_opts x (item_tokens items ++ tail) req w).1 = 0 →
        (parse_cmd_opts x (item_tokens items ++ tail) req w).2.1
          = (parse_cmd_opts x (clause_tokens (item_clauses items) ++ tail) req w).2.1) := by
  induction items with
  | nil => intro req w; exact ⟨rfl, rfl, fun _ => rfl⟩
  | cons i items ih =>
    intro req w
    cases i with
    | other t =>
      simp only [items_unrecognised, unrecognised, Bool.and_eq_true, decide_eq_true_eq] at h
      have h1 : t ≠ Tok.KW .CONSOLE := h.1.1.1.1.2
      have h2 : t ≠ Tok.KW .OPTION := h.1.1.1.2
      have h3 : t ≠ Tok.KW .PROGRAM := h.1.1.2
      have h4 : t ≠ Tok.EOL := h.1.2
      have e : parse_cmd_opts x (item_tokens (Item.other t :: items) ++ tail) req w
          = parse_cmd_opts x (item_tokens items ++ tail) req w := by
        simp only [item_tokens, List.cons_append]
        conv => lhs; unfold parse_cmd_opts
        simp only [h1, h2, h3, h4, if_false]
      rw [e]
      exact ih h.2 req w
    | clause c =>
      have h' : items_unrecognised items = true := by simpa [items_unrecognised] using h
      cases c with
      | console pat =>
        simp only [item_tokens, item_clauses, clause_tokens, Clause.tokens, List.cons_append,
          List.nil_append, parse_cmd_opts, if_true]
        by_cases hp : pat = []
        · simp only [hp, ne_eq, not_true_eq_false, if_false]
          exact ih h' req w
        · simp only [hp, ne_eq, not_false_eq_true, if_true]
          cases hd : (decode_dup x pat w).1 with
          | none => simp
          | some str =>
            by_cases ha : (decode_dup x pat w).2.alloc.1 = false
            · simp [ha]
            · simp only [ha, if_false]
              exact ih h' _ _
      | option k =>
        simp only [item_tokens, item_clauses, clause_tokens, Clause.tokens, List.cons_append,
          List.nil_append, parse_cmd_opts, if_true, reduceCtorEq, if_false]
        by_cases hf : k = proto_toks.FORCE
        · simp only [hf, if_true]
          exact ih h' _ _
        · by_cases hb : k = proto_toks.BROADCAST
          · simp only [hb, if_true, reduceCtorEq, if_false, Tok.KW.injEq]
            exact ih h' _ _
          · simp only [hf, hb, if_false, Tok.KW.injEq]
            exact ih h' _ _
      | program s =>
        simp only [item_tokens, item_clauses, clause_tokens, Clause.tokens, List.cons_append,
          List.nil_append, parse_cmd_opts, if_true, reduceCtorEq, if_false]
        by_cases hp : s = []
        · simp only [hp, ne_eq, not_true_eq_false, if_false]
          exact ih h' req w
        · simp only [hp, ne_eq, not_false_eq_true, if_true]
          by_cases hd : (decode_dup x s w).1 = none
          · simp [hd]
          · simp only [hd, if_false]
            exact ih h' _ _

theorem recv_req_loop_other {Rex : Type} (x : Ext Rex) (fuel : Nat) (t : Tok) (l : List Tok)
    (req : req_t) (w : World) (h1 : command_of t = none) (h2 : t ≠ Tok.EOL) :
    recv_req_loop x (fuel + 1) (t :: l) req w = recv_req_loop x fuel l req w := by
  conv => lhs; unfold recv_req_loop
  simp only [h1, h2, if_false]

theorem recv_req_loop_skip {Rex : Type} (x : Ext Rex) (pre : List Tok)
    (h : ∀ t ∈ pre, unrecognised t = true) :
    ∀ (fuel : Nat) (l : List Tok) (req : req_t) (w : World),
      recv_req_loop x (fuel + pre.length) (pre ++ l) req w = recv_req_loop x fuel l req w := by
  induction pre with
  | nil => intro fuel l req w; rfl
  | cons t pre ih =>
    intro fuel l req w
    have ht := h t (by simp)
    simp only [unrecognised, Bool.and_eq_true, decide_eq_true_eq, Option.isNone_iff_eq_none]
      at ht
    have e : fuel + (t :: pre).length = (fuel + pre.length) + 1 := by simp; omega
    rw [e, List.cons_append, recv_req_loop_other x _ t _ req w ht.1.1.1.1 ht.2]
    exact ih (fun t' ht' => h t' (by simp [ht'])) fuel l req w

theorem recv_req_loop_items {Rex : Type} (x : Ext Rex) (t : Tok) (c : cmd_t)
    (hc : command_of t = some c) (items : List Item) (h : items_unrecognised items = true)
    (tail : List Tok) (req : req_t) (w : World) :
    recv_req_loop x ((t :: item_tokens items ++ tail).length + 1)
        (t :: item_tokens items ++ tail) req w
      = recv_req_loop x ((t :: clause_tokens (item_clauses items) ++ tail).length + 1)
          (t :: clause_tokens (item_clauses items) ++ tail) req w := by
  have hi := parse_cmd_opts_items x tail items h { req with command := c } w
  have hs1 := (parse_cmd_opts_suffix x (item_tokens items ++ tail)
    { req with command := c } w).length_le
  have hs2 := (parse_cmd_opts_suffix x (clause_tokens (item_clauses items) ++ tail)
    { req with command := c } w).length_le
  simp only [List.cons_append, List.length_cons]
  conv => lhs; unfold recv_req_loop
  conv => rhs; unfold recv_req_loop
  simp only [hc]
  by_cases h0 : (parse_cmd_opts x (item_tokens items ++ tail) { req with command := c } w).1
      = 0
  · have h0' := hi.1 ▸ h0
    simp only [h0, h0', ne_eq, not_true_eq_false, if_false, ← hi.2.1, ← hi.2.2 h0]
    exact recv_req_loop_fuel x _ _ _ _ _ (by omega) (by rw [hi.2.2 h0]; omega)
  · have h0' : ¬ (parse_cmd_opts x (clause_tokens (item_clauses items) ++ tail)
        { req with command := c } w).1 = 0 := hi.1 ▸ h0
    simp only [h0, h0', ne_eq, not_false_eq_true, if_true, hi.1, hi.2.1]

theorem parse_cmd_opts_command {Rex : Type} (x : Ext Rex) (l : List Tok) (req : req_t)
    (w : World) : (parse_cmd_opts x l req w).2.2.1.command = req.command := by
  induction l, req, w using parse_cmd_opts.induct x
  all_goals unfold parse_cmd_opts
  all_goals simp only [*, if_true, if_false, ne_eq, not_true_eq_false, not_false_eq_true,
    reduceCtorEq]

theorem command_of_ne_none (t : Tok) (c : cmd_t) (h : command_of t = some c) :
    c ≠ cmd_t.NONE := by
  unfold command_of at h
  split at h <;> first | (cases h; decide) | (exact absurd h (by simp))

/-- What `recv_req` keeps true of the request: without a command it has no pattern. -/
theorem recv_req_loop_command {Rex : Type} (x : Ext Rex) :
    ∀ (fuel : Nat) (toks : List Tok) (req : req_t) (w : World),
      (req.command = cmd_t.NONE → req.consoles = .strs []) →
      ((recv_req_loop x fuel toks req w).2.1.command = cmd_t.NONE →
        (recv_req_loop x fuel toks req w).2.1.consoles = .strs []) := by
  intro fuel
  induction fuel with
  | zero => intro toks req w h; simpa [recv_req_loop] using h
  | succ fuel ih =>
    intro toks req w h
    match toks with
    | [] => simpa [recv_req_loop] using h
    | t :: l =>
      unfold recv_req_loop
      cases hc : command_of t with
      | none =>
        by_cases hE : t = Tok.EOL
        · simpa [hE] using h
        · simp only [hE, if_false]
          exact ih l req w h
      | some c =>
        have hne := command_of_ne_none t c hc
        have hcmd : (parse_cmd_opts x l { req with command := c } w).2.2.1.command = c :=
          parse_cmd_opts_command x l { req with command := c } w
        by_cases h0 : (parse_cmd_opts x l { req with command := c } w).1 = 0
        · simp only [h0, ne_eq, not_true_eq_false, if_false]
          exact ih _ _ _ (fun hn => absurd (hcmd ▸ hn) hne)
        · simp only [h0, ne_eq, not_false_eq_true, if_true]
          intro hn
          exact absurd (hcmd ▸ hn) hne

theorem recv_req_loop_no_command {Rex : Type} (x : Ext Rex) :
    ∀ (fuel : Nat) (toks : List Tok) (req : req_t) (w : World),
      (∀ t ∈ toks, command_of t = none) → recv_req_loop x fuel toks req w = (1, req, w) := by
  intro fuel
  induction fuel with
  | zero => intro toks req w _; simp [recv_req_loop]
  | succ fuel ih =>
    intro toks req w h
    match toks with
    | [] => simp [recv_req_loop]
    | t :: l =>
      unfold recv_req_loop
      simp only [h t (by simp)]
      by_cases hE : t = Tok.EOL
      · simp [hE]
      · simp only [hE, if_false]
        exact ih l req w (fun t' ht' => h t' (by simp [ht']))

theorem recv_req_command {Rex : Type} (x : Ext Rex) (n : Int) (toks : List Tok) (req : req_t)
    (w : World) (h : req.command = cmd_t.NONE → req.consoles = .strs []) :
    (recv_req x n toks req w).2.1.command = cmd_t.NONE →
      (recv_req x n toks req w).2.1.consoles = .strs [] := by
  have hl := recv_req_loop_command x (toks.length + 1) toks req w.alloc.2 h
  unfold recv_req
  by_cases h1 : n < 0
  · simpa [h1] using h
  · by_cases h2 : n = 0
    · simpa [h1, h2] using h
    · by_cases h3 : w.alloc.1 = false
      · simpa [h1, h2, h3] using h
      · simp only [h1, h2, h3, if_false]
        by_cases h4 : (recv_req_loop x (toks.length + 1) toks req w.alloc.2).1 = -1
        · simpa [h4] using hl
        · simpa [h4] using hl

theorem to_int_id (z : Int) (h1 : -2147483648 ≤ z) (h2 : z ≤ 2147483647) : to_int z = z := by
  unfold to_int
  omega

theorem addrs_size_eq (h : Int) (l : List (List Char)) :
    addrs_size h l = (l.length : Int) * h := by
  induction l with
  | nil => simp [addrs_size]
  | cons a l ih => simp only [addrs_size, ih, List.length_cons]; push_cast; ring

theorem ptrs_size_eq (P : Int) (l : List (List Char)) :
    ptrs_size P l = ((l.length : Int) + 1) * P := by
  induction l with
  | nil => simp [ptrs_size]
  | cons a l ih => simp only [ptrs_size, ih, List.length_cons]; push_cast; ring

theorem addrs_size_nonneg (h : Int) (hh : 0 ≤ h) (l : List (List Char)) :
    0 ≤ addrs_size h l := by
  induction l with
  | nil => simp [addrs_size]
  | cons a l ih => simp only [addrs_size]; omega

theorem ptrs_size_pos (P : Int) (hP : 0 ≤ P) (l : List (List Char)) :
    P ≤ ptrs_size P l := by
  induction l with
  | nil => simp [ptrs_size]
  | cons a l ih => simp only [ptrs_size]; omega

theorem strings_size_nonneg (l : List (List Char)) : 0 ≤ strings_size l := by
  induction l with
  | nil => simp [strings_size]
  | cons a l ih => simp only [strings_size]; omega

theorem strlcpy_count_le (src : List Char) (size : Int) :
    strlcpy_count src size ≤ 0 ∨ strlcpy_count src size ≤ size := by
  unfold strlcpy_count
  by_cases h : 0 < size
  · right; simp only [h, if_true]; omega
  · left; simp [h]

theorem copy_addrs_spec (h P : Int) (hh : 0 ≤ h) (hP : 0 ≤ P) (l : List (List Char)) :
    ∀ (slot len off : Int), 0 ≤ len → len ≤ INT_MAX → addrs_size h l ≤ INT_MAX →
      (copy_addrs h P l slot len off).1
          = (if addrs_size h l ≤ len then
              some (len - addrs_size h l, off + addrs_size h l) else none) ∧
      ∀ wr ∈ (copy_addrs h P l slot len off).2,
        (wr.2 ≤ 0 ∨ (off ≤ wr.1 ∧ wr.1 + wr.2 ≤ off + len)) ∨
        (slot ≤ wr.1 ∧ wr.1 + wr.2 ≤ slot + ptrs_size P l) := by
  induction l with
  | nil =>
    intro slot len off h0 _ _
    simp [copy_addrs, addrs_size, ptrs_size, h0]
  | cons a l ih =>
    intro slot len off h0 h1 h2
    have hn := addrs_size_nonneg h hh l
    have hp := ptrs_size_pos P hP l
    simp only [addrs_size, INT_MAX] at h2 h1
    have e : to_int (len - h) = len - h := to_int_id _ (by omega) (by omega)
    unfold copy_addrs
    rw [e]
    by_cases hc : len - h < 0
    · simp only [hc, if_true, addrs_size]
      refine ⟨by rw [if_neg (by omega)], by simp⟩
    · simp only [hc, if_false, addrs_size]
      have ih' := ih (slot + P) (len - h) (off + h) (by omega) (by simp only [INT_MAX]; omega)
        (by simp only [INT_MAX]; omega)
      refine ⟨?_, ?_⟩
      · rw [ih'.1]
        by_cases hc2 : addrs_size h l ≤ len - h
        · rw [if_pos hc2, if_pos (by omega)]
          simp only [Option.some.injEq, Prod.mk.injEq]
          constructor <;> omega
        · rw [if_neg hc2, if_neg (by omega)]
      · intro wr hwr
        simp only [List.mem_cons] at hwr
        rcases hwr with rfl | rfl | hwr
        · left; right; simp only; omega
        · right; simp only [ptrs_size]; omega
        · rcases ih'.2 wr hwr with (h3 | h3) | h3
          · left; left; exact h3
          · left; right; omega
          · right; simp only [ptrs_size]; omega

theorem copy_aliases_spec (P : Int) (hP : 0 ≤ P) (l : List (List Char)) :
    ∀ (slot len off : Int), 0 ≤ len → len ≤ INT_MAX → strings_size l ≤ INT_MAX →
      (copy_aliases P l slot len off).1
          = (if strings_size l ≤ len then
              some (len - strings_size l, off + strings_size l) else none) ∧
      ∀ wr ∈ (copy_aliases P l slot len off).2,
        (wr.2 ≤ 0 ∨ (off ≤ wr.1 ∧ wr.1 + wr.2 ≤ off + len)) ∨
        (slot ≤ wr.1 ∧ wr.1 + wr.2 ≤ slot + ptrs_size P l) := by
  induction l with
  | nil =>
    intro slot len off h0 _ _
    simp [copy_aliases, strings_size, ptrs_size, h0]
  | cons a l ih =>
    intro slot len off h0 h1 h2
    have hn := strings_size_nonneg l
    have hp := ptrs_size_pos P hP l
    simp only [strings_size, INT_MAX] at h2 h1
    have e1 : to_int ((a.length : Int) + 1) = (a.length : Int) + 1 :=
      to_int_id _ (by omega) (by omega)
    have e : to_int (len - ((a.length : Int) + 1)) = len - ((a.length : Int) + 1) :=
      to_int_id _ (by omega) (by omega)
    have hcnt := strlcpy_count_le a len
    unfold copy_aliases
    rw [e1, e]
    by_cases hc : len - ((a.length : Int) + 1) < 0
    · simp only [hc, if_true, strings_size]
      refine ⟨by rw [if_neg (by omega)], ?_⟩
      intro wr hwr
      simp only [List.mem_cons, List.mem_singleton, List.not_mem_nil, or_false] at hwr
      rcases hwr with rfl | rfl
      · left
        rcases hcnt with h3 | h3
        · left; exact h3
        · right; simp only; omega
      · right; simp only [ptrs_size]; omega
    · simp only [hc, if_false, strings_size]
      have ih' := ih (slot + P) (len - ((a.length : Int) + 1)) (off + ((a.length : Int) + 1))
        (by omega) (by simp only [INT_MAX]; omega) (by simp only [INT_MAX]; omega)
      refine ⟨?_, ?_⟩
      · rw [ih'.1]
        by_cases hc2 : strings_size l ≤ len - ((a.length : Int) + 1)
        · rw [if_pos hc2, if_pos (by omega)]
          simp only [Option.some.injEq, Prod.mk.injEq]
          constructor <;> omega
        · rw [if_neg hc2, if_neg (by omega)]
      · intro wr hwr
        simp only [List.mem_cons] at hwr
        rcases hwr with rfl | rfl | hwr
        · left
          rcases hcnt with h3 | h3
          · left; exact h3
          · right; simp only; omega
        · right; simp only [ptrs_size]; omega
        · rcases ih'.2 wr hwr with (h3 | h3) | h3
          · left; left; exact h3
          · left; right; omega
          · right; simp only [ptrs_size]; omega

theorem hostent_size_eq (abi : Abi) (src : hostent) :
    hostent_size abi src
      = abi.sizeof_hostent + ptrs_size abi.sizeof_ptr src.h_aliases
          + ptrs_size abi.sizeof_ptr src.h_addr_list
          + addrs_size src.h_length src.h_addr_list
          + strings_size src.h_aliases + (src.h_name.length + 1) := by
  unfold hostent_size
  rw [ptrs_size_eq, ptrs_size_eq, addrs_size_eq]
  ring

/-! ## C1 -/

/-- C1, as the code has it: for a request that holds a non-empty list `ps` of patterns,
the regex source is the patterns joined with `|` (cut to the `MAX_BUF_SIZE - 1` bytes of
the buffer); when `query_consoles` returns 0 that source compiled, and the list of the
request is then exactly the objects of the registry, in registry order and each once, that
are consoles and whose name the compiled alternation matches; and `query_consoles` does
return 0 with that list when the source compiles and no allocation fails. -/
theorem query_consoles_resolves {Rex : Type} (x : Ext Rex) (conf : server_conf_t)
    (req : req_t) (w : World) (ps : List (List Char))
    (hreq : req.consoles = .strs ps) (hps : ps ≠ []) :
    query_buf ps = (List.intercalate ['|'] ps).take (MAX_BUF_SIZE - 1) ∧
    ((query_consoles x conf req w).1 = 0 →
      ∃ rex, x.regcomp (query_buf ps) = .ok rex ∧
        (query_consoles x conf req w).2.1
          = { req with consoles := .objs (conf.objs.filter (console_matches x rex)) }) ∧
    (∀ rex, x.regcomp (query_buf ps) = .ok rex → w.allocs = [] →
      query_consoles x conf req w
        = (0, { req with consoles := .objs (conf.objs.filter (console_matches x rex)) }, w)) := by
  rw [query_consoles_of_strs x conf req w ps hreq hps]
  exact ⟨query_buf_eq ps hps, query_resolve_ok x conf ps req w,
    fun rex hc hw => query_resolve_of_nil x conf ps req w rex hc hw⟩

/-- C1 at the patterns `a` and `b` on the registry `conf0`: both consoles are found, the
logfile `a.log` is not. -/
theorem query_consoles_resolves_witness :
    ({ request0 "127.0.0.1" with consoles := .strs ["a".toList, "b".toList] }).consoles
      = .strs ["a".toList, "b".toList] ∧
    ["a".toList, "b".toList] ≠ [] ∧
    query_consoles ere conf0
        { request0 "127.0.0.1" with consoles := .strs ["a".toList, "b".toList] } world0
      = (0, { request0 "127.0.0.1" with
                consoles := .objs (conf0.objs.filter
                  (console_matches ere (Re.alt (Re.chr 'a') (Re.chr 'b')))) }, world0) ∧
    conf0.objs.filter (console_matches ere (Re.alt (Re.chr 'a') (Re.chr 'b')))
      = [console0 1 "a", console0 2 "b"] :=
  ⟨rfl, by decide,
   (query_consoles_resolves ere conf0 _ world0 ["a".toList, "b".toList] rfl (by decide)).2.2
     (Re.alt (Re.chr 'a') (Re.chr 'b')) rfl rfl,
   by decide⟩

/-- C1 fails when the patterns only make a regex together: the request line
`CONNECT CONSOLE='(a' CONSOLE='b)'` gives the patterns `(a` and `b)`; `query_consoles`
compiles `(a|b)` and answers with the consoles `a` and `b`, while no console name is matched
by one of the two patterns taken on its own (`(a` does not compile, `b)` matches neither
name). -/
theorem query_consoles_joins_patterns :
    recv_req ere 32
        (Tok.KW .CONNECT :: console_clause "(a" ++ console_clause "b)" ++ [Tok.EOL])
        (request0 "127.0.0.1") world0
      = (0, { request0 "127.0.0.1" with
                command := cmd_t.CONNECT, consoles := .strs ["(a".toList, "b)".toList] },
          world0) ∧
    query_consoles ere conf0
        { request0 "127.0.0.1" with
            command := cmd_t.CONNECT, consoles := .strs ["(a".toList, "b)".toList] } world0
      = (0, { request0 "127.0.0.1" with
                command := cmd_t.CONNECT,
                consoles := .objs [console0 1 "a", console0 2 "b"] }, world0) ∧
    conf0.objs.filter (fun o => decide (o.type = obj_type.CONSOLE)
        && matches_some_pattern ere ["(a".toList, "b)".toList] o.name) = [] :=
  ⟨by decide, by decide, by decide⟩

/-! ## C2 -/

/-- C2, as the code has it: whether or not the request carries `OPTION=REGEX`, the patterns
are compiled as they are. The string handed to `regcomp` is the patterns joined with `|`
(cut to the `MAX_BUF_SIZE - 1` bytes of the buffer), with no glob translation; a clause
`OPTION=REGEX` leaves the request as it is; and a clause `CONSOLE='text'` adds to the list
the text as the lexer decodes it, nothing else done to it. -/
theorem query_buf_verbatim {Rex : Type} (x : Ext Rex) :
    (∀ ps : List (List Char), ps ≠ [] →
      query_buf ps = (List.intercalate ['|'] ps).take (MAX_BUF_SIZE - 1)) ∧
    (∀ (l : List Tok) (req : req_t) (w : World),
      parse_cmd_opts x (Tok.KW .OPTION :: Tok.CHR '=' :: Tok.KW .REGEX :: l) req w
        = parse_cmd_opts x l req w) ∧
    (∀ (text : List Char) (l : List Tok) (req : req_t) (w : World) (ps : List (List Char)),
      text ≠ [] → req.consoles = .strs ps → w.allocs = [] →
      parse_cmd_opts x (Tok.KW .CONSOLE :: Tok.CHR '=' :: Tok.STR text :: l) req w
        = parse_cmd_opts x l { req with consoles := .strs (ps ++ [x.lex_decode text]) } w) := by
  refine ⟨query_buf_eq, ?_, ?_⟩
  · intro l req w
    simp [parse_cmd_opts]
  · intro text l req w ps ht hreq hw
    simp [parse_cmd_opts, ht, decode_dup, alloc_of_nil w hw, hreq]

/-- C2 at the pattern `con?`: it reaches `regcomp` as it is, with or without `OPTION=REGEX`
before it. -/
theorem query_buf_verbatim_witness :
    ["con?".toList] ≠ [] ∧ "con?".toList ≠ [] ∧
    (request0 "127.0.0.1").consoles = .strs [] ∧ world0.allocs = [] ∧
    query_buf ["con?".toList] = (List.intercalate ['|'] ["con?".toList]).take (MAX_BUF_SIZE - 1) ∧
    parse_cmd_opts ere (Tok.KW .OPTION :: Tok.CHR '=' :: Tok.KW .REGEX :: console_clause "con?")
        (request0 "127.0.0.1") world0
      = parse_cmd_opts ere (console_clause "con?") (request0 "127.0.0.1") world0 ∧
    parse_cmd_opts ere (Tok.KW .CONSOLE :: Tok.CHR '=' :: Tok.STR "con?".toList :: [])
        (request0 "127.0.0.1") world0
      = parse_cmd_opts ere []
          { request0 "127.0.0.1" with consoles := .strs ([] ++ [ere.lex_decode "con?".toList]) }
          world0 :=
  ⟨by decide, by decide, rfl, rfl,
   (query_buf_verbatim ere).1 _ (by decide),
   (query_buf_verbatim ere).2.1 _ _ _,
   (query_buf_verbatim ere).2.2 _ _ _ _ [] (by decide) rfl rfl⟩

/-- C2 fails: the request line `QUERY CONSOLE='*'` carries no `OPTION=REGEX`; the string
handed to `regcomp` is `*`, not the glob translation `.*`, and the request is answered with
the BAD_REGEX error instead of the list of all consoles. -/
theorem query_buf_no_glob :
    recv_req ere 18 (Tok.KW .QUERY :: console_clause "*" ++ [Tok.EOL])
        (request0 "127.0.0.1") world0
      = (0, { request0 "127.0.0.1" with
                command := cmd_t.QUERY, consoles := .strs ["*".toList] }, world0) ∧
    query_buf ["*".toList] = "*".toList ∧
    glob_source ["*".toList] = ".*".toList ∧
    query_consoles ere conf0
        { request0 "127.0.0.1" with command := cmd_t.QUERY, consoles := .strs ["*".toList] }
        world0
      = (-1, { request0 "127.0.0.1" with
                command := cmd_t.QUERY, consoles := .strs ["*".toList] },
          { world0 with trace := [Event.write 3
            "ERROR CODE=3 MESSAGE='Invalid preceding regular expression'\n".toList true] }) :=
  ⟨by decide, by decide, by decide, by decide⟩

/-! ## C3 -/

/-- C3: on a request with no pattern, (1) for QUERY, once the copy of `.*` and its list
entry are allocated, `query_consoles` goes on exactly as on the one-element pattern list
`.*`; (2) so, absent allocation failure and with a regex library for which `.*` compiles
and matches every string, it returns 0 with every console of the registry in the list;
(3) for every other command it returns 0 and leaves the request, with its empty list, and
the world as they are. -/
theorem query_consoles_empty_list {Rex : Type} (x : Ext Rex) (conf : server_conf_t)
    (req : req_t) (w : World) (hreq : req.consoles = .strs []) :
    (req.command = cmd_t.QUERY → w.alloc.1 = true → w.alloc.2.alloc.1 = true →
      query_consoles x conf req w
        = query_consoles x conf { req with consoles := .strs [['.', '*']] }
            w.alloc.2.alloc.2) ∧
    (req.command = cmd_t.QUERY → w.allocs = [] →
      ∀ rex, x.regcomp ['.', '*'] = .ok rex → (∀ s, x.regexec rex s = true) →
      query_consoles x conf req w
        = (0, { req with
                  consoles := console_list.objs
                    (conf.objs.filter (fun o => decide (o.type = obj_type.CONSOLE))) }, w)) ∧
    (req.command ≠ cmd_t.QUERY → query_consoles x conf req w = (0, req, w)) := by
  refine ⟨?_, ?_, ?_⟩
  · intro hq h1 h2
    simp [query_consoles, hreq, hq, h1, h2]
  · intro hq hw rex hc hall
    have hb : query_buf [['.', '*']] = ['.', '*'] := by decide
    have hf : conf.objs.filter (console_matches x rex)
        = conf.objs.filter (fun o => decide (o.type = obj_type.CONSOLE)) := by
      apply List.filter_congr
      intro o _
      simp [console_matches, hall]
    simp [query_consoles, hreq, hq, alloc_of_nil w hw,
      query_resolve_of_nil x conf [['.', '*']] _ w rex (by rw [hb]; exact hc) hw, hf]
  · intro hq
    simp [query_consoles, hreq, hq]

/-- C3 on the registry `conf0`: a QUERY without pattern gets the two consoles and not the
logfile; a CONNECT without pattern keeps its empty list. -/
theorem query_consoles_empty_list_witness :
    ({ request0 "127.0.0.1" with command := cmd_t.QUERY }).consoles = .strs [] ∧
    query_consoles ere conf0 { request0 "127.0.0.1" with command := cmd_t.QUERY } world0
      = query_consoles ere conf0
          { request0 "127.0.0.1" with command := cmd_t.QUERY, consoles := .strs [['.', '*']] }
          world0 ∧
    query_consoles ere conf0 { request0 "127.0.0.1" with command := cmd_t.QUERY } world0
      = (0, { request0 "127.0.0.1" with
                command := cmd_t.QUERY,
                consoles := .objs (conf0.objs.filter
                  (fun o => decide (o.type = obj_type.CONSOLE))) }, world0) ∧
    query_consoles ere conf0 { request0 "127.0.0.1" with command := cmd_t.CONNECT } world0
      = (0, { request0 "127.0.0.1" with command := cmd_t.CONNECT }, world0) :=
  ⟨rfl,
   (query_consoles_empty_list ere conf0 { request0 "127.0.0.1" with command := cmd_t.QUERY }
      world0 rfl).1 rfl rfl rfl,
   (query_consoles_empty_list ere conf0 { request0 "127.0.0.1" with command := cmd_t.QUERY }
      world0 rfl).2.1 rfl rfl (Re.star Re.any) rfl ere_dot_star,
   (query_consoles_empty_list ere conf0 { request0 "127.0.0.1" with command := cmd_t.CONNECT }
      world0 rfl).2.2 (by decide)⟩

/-! ## C4 -/

/-- C4: whatever the command, when the console list of the request is empty `validate_req`
sends the one response `ERROR CODE=5 MESSAGE='Found no matching consoles.'` and returns
-1; when the list is not empty it returns 0 and sends nothing. -/
theorem validate_req_no_consoles (req : req_t) (w : World) :
    (req.consoles.is_empty = true →
      (validate_req req w).1 = -1 ∧
      (validate_req req w).2.trace = w.trace ++
        [Event.write req.sd "ERROR CODE=5 MESSAGE='Found no matching consoles.'\n".toList
          w.write_ok]) ∧
    (req.consoles.is_empty = false → validate_req req w = (0, w)) := by
  constructor
  · intro h
    have e : rsp_line CONMAN_ERR_NO_CONSOLES (some MSG_NO_CONSOLES)
        = "ERROR CODE=5 MESSAGE='Found no matching consoles.'\n".toList := by decide
    simp [validate_req, h, send_rsp_trace, e]
  · intro h
    simp [validate_req, h]

/-- C4 at two requests: an empty list of a QUERY, and a CONNECT that holds one console. -/
theorem validate_req_no_consoles_witness :
    ({ request0 "127.0.0.1" with command := cmd_t.QUERY }).consoles.is_empty = true ∧
    (validate_req { request0 "127.0.0.1" with command := cmd_t.QUERY } world0).1 = -1 ∧
    (validate_req { request0 "127.0.0.1" with command := cmd_t.QUERY } world0).2.trace =
      [Event.write 3 "ERROR CODE=5 MESSAGE='Found no matching consoles.'\n".toList true] ∧
    validate_req { request0 "127.0.0.1" with
        command := cmd_t.CONNECT, consoles := .objs [console0 1 "a"] } world0 = (0, world0) :=
  ⟨by decide,
   ((validate_req_no_consoles _ world0).1 (by decide)).1,
   ((validate_req_no_consoles _ world0).1 (by decide)).2,
   (validate_req_no_consoles _ world0).2 (by decide)⟩

/-! ## C5 -/

/-- C5 does not hold on the code: on the registry `conf_busy`, whose console `a` has the
writer 9, the request line `CONNECT CONSOLE='a'` (no `OPTION=FORCE`) is parsed, resolved to
that console, and `validate_req` returns 0 without sending anything: no `ERROR CODE=7`. -/
theorem validate_req_busy_console :
    recv_req ere 20 (Tok.KW .CONNECT :: console_clause "a" ++ [Tok.EOL])
        (request0 "127.0.0.1") world0
      = (0, { request0 "127.0.0.1" with
                command := cmd_t.CONNECT, consoles := .strs ["a".toList] }, world0) ∧
    query_consoles ere conf_busy
        { request0 "127.0.0.1" with command := cmd_t.CONNECT, consoles := .strs ["a".toList] }
        world0
      = (0, { request0 "127.0.0.1" with
                command := cmd_t.CONNECT,
                consoles := .objs [{ console0 1 "a" with writer := some 9 }] }, world0) ∧
    ({ request0 "127.0.0.1" with
        command := cmd_t.CONNECT,
        consoles := .objs [{ console0 1 "a" with writer := some 9 }] } : req_t).enableForce = 0 ∧
    validate_req
        { request0 "127.0.0.1" with
            command := cmd_t.CONNECT,
            consoles := .objs [{ console0 1 "a" with writer := some 9 }] } world0
      = (0, world0) :=
  ⟨by decide, by decide, rfl, by decide⟩

/-! ## C6 -/

/-- C6 does not hold on the code: on the registry `conf0` the request line
`CONNECT CONSOLE='a' CONSOLE='b'` (no `OPTION=BROADCAST`) is parsed, resolved to the two
consoles `a` and `b`, and `validate_req` returns 0 without sending anything: no
`ERROR CODE=6`. -/
theorem validate_req_many_consoles :
    recv_req ere 32 (Tok.KW .CONNECT :: console_clause "a" ++ console_clause "b" ++ [Tok.EOL])
        (request0 "127.0.0.1") world0
      = (0, { request0 "127.0.0.1" with
                command := cmd_t.CONNECT, consoles := .strs ["a".toList, "b".toList] },
          world0) ∧
    query_consoles ere conf0
        { request0 "127.0.0.1" with
            command := cmd_t.CONNECT, consoles := .strs ["a".toList, "b".toList] } world0
      = (0, { request0 "127.0.0.1" with
                command := cmd_t.CONNECT,
                consoles := .objs [console0 1 "a", console0 2 "b"] }, world0) ∧
    ({ request0 "127.0.0.1" with
        command := cmd_t.CONNECT,
        consoles := .objs [console0 1 "a", console0 2 "b"] } : req_t).enableBroadcast = 0 ∧
    validate_req
        { request0 "127.0.0.1" with
            command := cmd_t.CONNECT,
            consoles := .objs [console0 1 "a", console0 2 "b"] } world0
      = (0, world0) :=
  ⟨by decide, by decide, rfl, by decide⟩

/-! ## C7 -/

/-- C7, as the code has it: for a greeting line that was read (`0 < n`), absent allocation
failure, and in a debug build or from the address 127.0.0.1: (1) a line that lexes to
`HELLO USER='s'` with `s` not empty is accepted: the user of the request is the decoded `s`,
the response is `OK`, and the result is 0 when that write succeeds; (2) a line on which no
clause `USER='s'` with non-empty `s` follows a `HELLO` keyword is answered with exactly
`ERROR CODE=2 MESSAGE='Invalid greeting: no user specified'` and -1, the request left as it
was. Lines of other shapes that hold such a clause after `HELLO` are not covered. -/
theorem recv_greeting_accepts {Rex : Type} (x : Ext Rex) (ndebug : Bool) (n : Int)
    (req : req_t) (w : World) (hn : 0 < n) (hw : w.allocs = []) :
    (∀ (s : List Char) (tail : List Tok), s ≠ [] → (tail = [] ∨ tail = [Tok.EOL]) →
      (ndebug = false ∨ req.ip = some LOCALHOST_IP) →
      recv_greeting x ndebug n
          ([Tok.KW .HELLO, Tok.KW .USER, Tok.CHR '=', Tok.STR s] ++ tail) req w
        = (if w.write_ok then 0 else -1, { req with user := some (x.lex_decode s) },
            { w with writes := w.writes.tail,
                     trace := w.trace ++ [Event.write req.sd "OK\n".toList w.write_ok] })) ∧
    (∀ toks : List Tok, has_greeting toks = false → req.user = none →
      recv_greeting x ndebug n toks req w
        = (-1, req,
            { w with writes := w.writes.tail,
                     trace := w.trace ++ [Event.write req.sd
                       "ERROR CODE=2 MESSAGE='Invalid greeting: no user specified'\n".toList
                       w.write_ok] })) := by
  have hn1 : ¬ n < 0 := by omega
  have hn2 : ¬ n = 0 := by omega
  constructor
  · intro s tail hs ht hip
    exact recv_greeting_of_hello x ndebug n req w s tail hn hw hs ht hip
  · intro toks hg hu
    have e : rsp_line CONMAN_ERR_BAD_REQUEST (some MSG_NO_USER)
        = "ERROR CODE=2 MESSAGE='Invalid greeting: no user specified'\n".toList := by decide
    unfold recv_greeting
    simp only [hn1, hn2, if_false, alloc_of_nil w hw, Bool.true_eq_false,
      recv_greeting_loop_no_greeting x req w _ toks hg]
    simp [hu, send_rsp_eq, e]

/-- C7 at the lines `HELLO USER='u'` and `HELLO`. -/
theorem recv_greeting_accepts_witness :
    (0 : Int) < 15 ∧ world0.allocs = [] ∧ "u".toList ≠ [] ∧
    (request0 "127.0.0.1").ip = some LOCALHOST_IP ∧
    has_greeting [Tok.KW .HELLO, Tok.EOL] = false ∧ (request0 "127.0.0.1").user = none ∧
    recv_greeting ere true 15
        ([Tok.KW .HELLO, Tok.KW .USER, Tok.CHR '=', Tok.STR "u".toList] ++ [Tok.EOL])
        (request0 "127.0.0.1") world0
      = (if world0.write_ok then 0 else -1,
          { request0 "127.0.0.1" with user := some (ere.lex_decode "u".toList) },
          { world0 with writes := world0.writes.tail,
                        trace := world0.trace ++ [Event.write 3 "OK\n".toList world0.write_ok] }) ∧
    recv_greeting ere true 15 [Tok.KW .HELLO, Tok.EOL] (request0 "127.0.0.1") world0
      = (-1, request0 "127.0.0.1",
          { world0 with writes := world0.writes.tail,
                        trace := world0.trace ++ [Event.write 3
                          "ERROR CODE=2 MESSAGE='Invalid greeting: no user specified'\n".toList
                          world0.write_ok] }) :=
  ⟨by decide, rfl, by decide, rfl, by decide, rfl,
   (recv_greeting_accepts ere true 15 (request0 "127.0.0.1") world0 (by decide) rfl).1
      "u".toList [Tok.EOL] (by decide) (Or.inr rfl) (Or.inr rfl),
   (recv_greeting_accepts ere true 15 (request0 "127.0.0.1") world0 (by decide) rfl).2
      [Tok.KW .HELLO, Tok.EOL] (by decide) rfl⟩

/-- C7 fails: the line `QUERY HELLO CONSOLE USER='u' FORCE` does not lex to
`HELLO USER='<string>'`, yet `recv_greeting` accepts it: it sets the user to `u`, answers
`OK` and returns 0. -/
theorem recv_greeting_other_shape :
    lexes_to_hello
        [Tok.KW .QUERY, Tok.KW .HELLO, Tok.KW .CONSOLE, Tok.KW .USER, Tok.CHR '=',
          Tok.STR "u".toList, Tok.KW .FORCE, Tok.EOL] = false ∧
    recv_greeting ere true 35
        [Tok.KW .QUERY, Tok.KW .HELLO, Tok.KW .CONSOLE, Tok.KW .USER, Tok.CHR '=',
          Tok.STR "u".toList, Tok.KW .FORCE, Tok.EOL]
        (request0 "127.0.0.1") world0
      = (0, { request0 "127.0.0.1" with user := some "u".toList },
          { world0 with trace := [Event.write 3 "OK\n".toList true] }) :=
  ⟨by decide, by decide⟩

/-! ## C8 -/

/-- C8, as the code has it: in a release build, for a greeting that lexes to
`HELLO USER='s'` with `s` not empty, read with success and absent allocation failure:
when the address string of the peer is not exactly `127.0.0.1`, `recv_greeting` sends
`ERROR CODE=4 MESSAGE='Authentication required (but not yet implemented)'` and returns -1;
when it is `127.0.0.1`, it sends `OK` and returns 0 when that write succeeds. -/
theorem recv_greeting_release {Rex : Type} (x : Ext Rex) (n : Int) (req : req_t) (w : World)
    (s : List Char) (tail : List Tok) (hn : 0 < n) (hw : w.allocs = []) (hs : s ≠ [])
    (ht : tail = [] ∨ tail = [Tok.EOL]) :
    (req.ip ≠ some "127.0.0.1".toList →
      recv_greeting x true n
          ([Tok.KW .HELLO, Tok.KW .USER, Tok.CHR '=', Tok.STR s] ++ tail) req w
        = (-1, { req with user := some (x.lex_decode s) },
            { w with writes := w.writes.tail,
                     trace := w.trace ++ [Event.write req.sd
                       ("ERROR CODE=4 MESSAGE='".toList
                         ++ "Authentication required (but not yet implemented)'\n".toList)
                       w.write_ok] })) ∧
    (req.ip = some "127.0.0.1".toList →
      recv_greeting x true n
          ([Tok.KW .HELLO, Tok.KW .USER, Tok.CHR '=', Tok.STR s] ++ tail) req w
        = (if w.write_ok then 0 else -1, { req with user := some (x.lex_decode s) },
            { w with writes := w.writes.tail,
                     trace := w.trace ++ [Event.write req.sd "OK\n".toList w.write_ok] })) := by
  have hn1 : ¬ n < 0 := by omega
  have hn2 : ¬ n = 0 := by omega
  have hl : LOCALHOST_IP = "127.0.0.1".toList := rfl
  constructor
  · intro hip
    have e : rsp_line CONMAN_ERR_AUTHENTICATE (some MSG_AUTH)
        = "ERROR CODE=4 MESSAGE='".toList
            ++ "Authentication required (but not yet implemented)'\n".toList := by decide
    unfold recv_greeting
    simp only [hn1, hn2, if_false, alloc_of_nil w hw, Bool.true_eq_false,
      recv_greeting_loop_hello x req w s tail hs ht hw]
    have hip' : req.ip ≠ some LOCALHOST_IP := hl ▸ hip
    simp [hip', send_rsp_eq, e]
  · intro hip
    exact recv_greeting_of_hello x true n req w s tail hn hw hs ht (Or.inr (hl ▸ hip))

/-- C8 at the line `HELLO USER='u'`, from 10.0.0.5 and from 127.0.0.1. -/
theorem recv_greeting_release_witness :
    (0 : Int) < 15 ∧ world0.allocs = [] ∧ "u".toList ≠ [] ∧
    (request0 "10.0.0.5").ip ≠ some "127.0.0.1".toList ∧
    (request0 "127.0.0.1").ip = some "127.0.0.1".toList ∧
    recv_greeting ere true 15
        ([Tok.KW .HELLO, Tok.KW .USER, Tok.CHR '=', Tok.STR "u".toList] ++ [Tok.EOL])
        (request0 "10.0.0.5") world0
      = (-1, { request0 "10.0.0.5" with user := some (ere.lex_decode "u".toList) },
          { world0 with writes := world0.writes.tail,
                        trace := world0.trace ++ [Event.write 3
                          ("ERROR CODE=4 MESSAGE='".toList
                            ++ "Authentication required (but not yet implemented)'\n".toList)
                          world0.write_ok] }) ∧
    recv_greeting ere true 15
        ([Tok.KW .HELLO, Tok.KW .USER, Tok.CHR '=', Tok.STR "u".toList] ++ [Tok.EOL])
        (request0 "127.0.0.1") world0
      = (if world0.write_ok then 0 else -1,
          { request0 "127.0.0.1" with user := some (ere.lex_decode "u".toList) },
          { world0 with writes := world0.writes.tail,
                        trace := world0.trace ++ [Event.write 3 "OK\n".toList world0.write_ok] }) :=
  ⟨by decide, rfl, by decide, by decide, rfl,
   (recv_greeting_release ere 15 (request0 "10.0.0.5") world0 "u".toList [Tok.EOL]
      (by decide) rfl (by decide) (Or.inr rfl)).1 (by decide),
   (recv_greeting_release ere 15 (request0 "127.0.0.1") world0 "u".toList [Tok.EOL]
      (by decide) rfl (by decide) (Or.inr rfl)).2 rfl⟩

/-- C8 fails for a loopback address other than 127.0.0.1: in a release build the greeting
`HELLO USER='u'` from the loopback address 127.0.0.2 is answered with `ERROR CODE=4` and
-1, not with `OK`. -/
theorem recv_greeting_loopback_refused :
    is_loopback "127.0.0.2".toList = true ∧
    recv_greeting ere true 15 (hello_line "u") (request0 "127.0.0.2") world0
      = (-1, { request0 "127.0.0.2" with user := some "u".toList },
          { world0 with trace := [Event.write 3
            ("ERROR CODE=4 MESSAGE='".toList
              ++ "Authentication required (but not yet implemented)'\n".toList) true] }) :=
  ⟨by decide, by decide⟩

/-! ## C9 -/

/-- C9: for a request that holds a non-empty list `ps` of patterns, when the iterator over
the list is allocated and `regcomp` fails on the joined patterns with code `rc`,
`query_consoles` returns -1, leaves the request as it was (its list still the pattern
strings, no console object in it) and makes exactly one write: the response line of
`send_rsp` for error number 3 (BAD_REGEX) and the message `lex_encode` makes of the
`regerror` text for `rc`; when that message leaves the line within `MAX_SOCK_LINE` bytes the
line is `ERROR CODE=3 MESSAGE='...'` with the message between the quotes. -/
theorem query_consoles_bad_regex {Rex : Type} (x : Ext Rex) (conf : server_conf_t)
    (req : req_t) (w : World) (ps : List (List Char)) (rc : Nat)
    (hreq : req.consoles = .strs ps) (hps : ps ≠ []) (hmem : w.alloc.1 = true)
    (hrc : x.regcomp (query_buf ps) = .error rc) :
    (query_consoles x conf req w).1 = -1 ∧
    (query_consoles x conf req w).2.1 = req ∧
    (query_consoles x conf req w).2.1.consoles.matched = [] ∧
    (query_consoles x conf req w).2.2.trace = w.trace ++
      [Event.write req.sd
        (rsp_line CONMAN_ERR_BAD_REGEX
          (some (x.lex_encode ((x.regerror rc).take (MAX_BUF_SIZE - 1)))))
        w.write_ok] ∧
    ((x.lex_encode ((x.regerror rc).take (MAX_BUF_SIZE - 1))).length + 24 < MAX_SOCK_LINE →
      rsp_line CONMAN_ERR_BAD_REGEX
          (some (x.lex_encode ((x.regerror rc).take (MAX_BUF_SIZE - 1))))
        = "ERROR CODE=3 MESSAGE='".toList
            ++ x.lex_encode ((x.regerror rc).take (MAX_BUF_SIZE - 1)) ++ "'\n".toList) := by
  rw [query_consoles_of_strs x conf req w ps hreq hps]
  have e : query_resolve x conf ps req w
      = (-1, req, (send_rsp req CONMAN_ERR_BAD_REGEX
          (some (x.lex_encode ((x.regerror rc).take (MAX_BUF_SIZE - 1)))) w.alloc.2).2) := by
    unfold query_resolve
    simp only [hmem, Bool.true_eq_false, if_false, hrc]
  rw [e]
  refine ⟨rfl, rfl, by simp [hreq, console_list.matched], ?_, ?_⟩
  · rw [send_rsp_trace, alloc_trace, alloc_write_ok]
  · intro hfit
    have hd : fmt_d CONMAN_ERR_BAD_REGEX = ['3'] := by decide
    rw [rsp_line_error _ _ (by decide) (by rw [hd]; simp only [List.length_singleton]; omega), hd]
    rfl

/-- C9 at the pattern `(a`, which `regcomp` refuses with `REG_EPAREN`. -/
theorem query_consoles_bad_regex_witness :
    ({ request0 "127.0.0.1" with
        command := cmd_t.CONNECT, consoles := .strs ["(a".toList] }).consoles
      = .strs ["(a".toList] ∧
    ["(a".toList] ≠ [] ∧ world0.alloc.1 = true ∧
    ere.regcomp (query_buf ["(a".toList]) = .error REG_EPAREN ∧
    (query_consoles ere conf0
      { request0 "127.0.0.1" with command := cmd_t.CONNECT, consoles := .strs ["(a".toList] }
      world0).1 = -1 ∧
    (query_consoles ere conf0
      { request0 "127.0.0.1" with command := cmd_t.CONNECT, consoles := .strs ["(a".toList] }
      world0).2.2.trace = world0.trace ++
      [Event.write 3
        (rsp_line CONMAN_ERR_BAD_REGEX
          (some (ere.lex_encode ((ere.regerror REG_EPAREN).take (MAX_BUF_SIZE - 1)))))
        world0.write_ok] ∧
    rsp_line CONMAN_ERR_BAD_REGEX
        (some (ere.lex_encode ((ere.regerror REG_EPAREN).take (MAX_BUF_SIZE - 1))))
      = "ERROR CODE=3 MESSAGE='Unmatched ( or \\\\('\n".toList :=
  ⟨rfl, by decide, rfl, rfl,
   (query_consoles_bad_regex ere conf0 _ world0 ["(a".toList] REG_EPAREN rfl (by decide) rfl
      rfl).1,
   (query_consoles_bad_regex ere conf0 _ world0 ["(a".toList] REG_EPAREN rfl (by decide) rfl
      rfl).2.2.2.1,
   by decide⟩

/-! ## C10 -/

/-- C10, as the code has it: for an error number `n` in 1..8 and a message `m` without a
single quote whose line fits the `MAX_SOCK_LINE` bytes of the buffer (`m` of at most 8167
bytes), `send_rsp` makes exactly one write, of the line `ERROR CODE=n MESSAGE='m'` with `n`
as one decimal digit and a newline at the end; for error number 0 it writes exactly `OK`
and a newline. -/
theorem send_rsp_line (req : req_t) (w : World) :
    (∀ (n : Int) (m : List Char), 1 ≤ n → n ≤ 8 → SQUOTE ∉ m → m.length + 24 < MAX_SOCK_LINE →
      fmt_d n = [Char.ofNat (48 + n.toNat)] ∧
      (send_rsp req n (some m) w).2.trace = w.trace ++
        [Event.write req.sd
          ("ERROR CODE=".toList ++ fmt_d n ++ " MESSAGE='".toList ++ m ++ "'\n".toList)
          w.write_ok]) ∧
    (∀ m : Option (List Char), (send_rsp req 0 m w).2.trace = w.trace ++
        [Event.write req.sd "OK\n".toList w.write_ok]) := by
  constructor
  · intro n m h1 h2 _ hfit
    have hd := fmt_d_digit n h1 h2
    refine ⟨hd, ?_⟩
    rw [send_rsp_trace, rsp_line_error n m (by omega) (by rw [hd]; simp only [List.length_singleton]; omega)]
  · intro m
    have e : rsp_line 0 m = "OK\n".toList := by
      rw [rsp_line_of_fits] <;> simp [rsp_format, CONMAN_ERR_NONE, proto_strs, MAX_SOCK_LINE]
      rfl
    rw [send_rsp_trace, e]

/-- C10 at the message `Doh` with error number 7. -/
theorem send_rsp_line_witness :
    (1 : Int) ≤ 7 ∧ (7 : Int) ≤ 8 ∧ SQUOTE ∉ "Doh".toList ∧
    "Doh".toList.length + 24 < MAX_SOCK_LINE ∧
    (send_rsp (request0 "127.0.0.1") 7 (some "Doh".toList) world0).2.trace =
      [Event.write 3 "ERROR CODE=7 MESSAGE='Doh'\n".toList true] :=
  ⟨by decide, by decide, by decide, by decide,
   ((send_rsp_line (request0 "127.0.0.1") world0).1 7 "Doh".toList
      (by decide) (by decide) (by decide) (by decide)).2⟩

/-- C10 fails for a long message: with error number 1 and a message of 8168 letters `x`
(no single quote in it) the line would take 8192 bytes; `send_rsp` writes its first 8189
bytes, then a double quote and a newline, and not the line the claim gives. -/
theorem send_rsp_long_message :
    SQUOTE ∉ List.replicate 8168 'x' ∧
    (send_rsp (request0 "127.0.0.1") 1 (some (List.replicate 8168 'x')) world0).2.trace =
      [Event.write 3 ("ERROR CODE=1 MESSAGE='".toList ++ List.replicate 8167 'x'
        ++ [DQUOTE, NL]) true] ∧
    (send_rsp (request0 "127.0.0.1") 1 (some (List.replicate 8168 'x')) world0).2.trace ≠
      [Event.write 3 ("ERROR CODE=1 MESSAGE='".toList ++ List.replicate 8168 'x'
        ++ "'\n".toList) true] := by
  have hq : SQUOTE ∉ List.replicate 8168 'x' := by
    intro h
    have := List.eq_of_mem_replicate h
    exact absurd this (by decide)
  have hlen : MAX_SOCK_LINE ≤ (rsp_format 1 (some (List.replicate 8168 'x'))).length := by
    rw [rsp_format_error_length 1 _ (by decide), List.length_replicate,
      fmt_d_digit 1 (by decide) (by decide)]
    decide
  have hP : "ERROR CODE=1 MESSAGE='".toList.length = 22 := by decide
  have e1 : "ERROR CODE=".toList ++ fmt_d 1 ++ " MESSAGE='".toList
      = "ERROR CODE=1 MESSAGE='".toList := by decide
  have key : rsp_line 1 (some (List.replicate 8168 'x'))
      = "ERROR CODE=1 MESSAGE='".toList ++ List.replicate 8167 'x' ++ [DQUOTE, NL] := by
    rw [rsp_line_of_overrun 1 _ hlen, rsp_format_error 1 _ (by decide), e1]
    generalize "ERROR CODE=1 MESSAGE='".toList = P at hP
    congr 1
    have h1 : MAX_SOCK_LINE - 3 ≤ (P ++ List.replicate 8168 'x').length := by
      rw [List.length_append, List.length_replicate, hP]; decide
    rw [List.take_append_of_le_length h1, List.take_append_eq_append_take,
      List.take_of_length_le (by rw [hP]; decide), List.take_replicate, hP]
    rfl
  refine ⟨hq, ?_, ?_⟩
  · rw [send_rsp_trace, key]; rfl
  · rw [send_rsp_trace, key]
    intro h
    have h2 := Event.write.inj (List.cons.inj h).1
    have h3 := congrArg List.length h2.2.1
    generalize "ERROR CODE=1 MESSAGE='".toList = P at hP h3
    rw [List.length_append, List.length_append, List.length_append, List.length_append,
      List.length_replicate, List.length_replicate, hP] at h3
    revert h3
    decide

/-! ## C11 -/

/-- C11: when the iterator over the list is allocated, no write fails and every console
name with its newline fits the `MAX_BUF_SIZE` bytes of `buf`, `perform_query_cmd` writes
`OK` and a newline, then one line for each console of the request, the name followed by a
newline, and nothing else before it closes the descriptor; the lines follow the list
`list_sort` makes, which holds the consoles of the request, each as often as the request
does, in ascending case-insensitive order of name. -/
theorem perform_query_cmd_lines (req : req_t) (w : World) (hmem : w.alloc.1 = true)
    (hwr : ∀ b ∈ w.writes, b = true)
    (hlen : ∀ o ∈ req.consoles.matched, o.name.length + 1 < MAX_BUF_SIZE) :
    (perform_query_cmd req w).2.trace
      = w.trace ++ [Event.write req.sd "OK\n".toList true]
          ++ (list_sort req.consoles.matched compare_objs).map
              (fun o => Event.write req.sd (o.name ++ [NL]) true)
          ++ [Event.close req.sd] ∧
    (list_sort req.consoles.matched compare_objs).Perm req.consoles.matched ∧
    List.Sorted (fun a b => strcasecmp a.name b.name ≤ 0)
      (list_sort req.consoles.matched compare_objs) := by
  refine ⟨?_, list_sort_perm _, list_sort_sorted _⟩
  have hw1 : ∀ b ∈ w.alloc.2.writes, b = true := by rw [alloc_writes]; exact hwr
  have hok : w.alloc.2.write_ok = true := by
    rw [alloc_write_ok]
    unfold World.write_ok
    cases hw : w.writes with
    | nil => rfl
    | cons b rest => exact hwr b (by simp [hw])
  have e : rsp_line CONMAN_ERR_NONE none = "OK\n".toList := by decide
  have hw2 : ∀ b ∈ (send_rsp req CONMAN_ERR_NONE none w.alloc.2).2.writes, b = true := by
    rw [send_rsp_eq]
    exact fun b hb => hw1 b (List.mem_of_mem_tail hb)
  have hl2 : ∀ o ∈ list_sort req.consoles.matched compare_objs,
      o.name.length + 1 < MAX_BUF_SIZE :=
    fun o ho => hlen o ((list_sort_perm _).mem_iff.mp ho)
  unfold perform_query_cmd
  simp only [hmem, Bool.true_eq_false, if_false, World.close]
  rw [query_write_loop_of_ok req.sd _ _ hw2 hl2, send_rsp_trace, alloc_trace, hok, e]

/-- C11 on a request that holds the consoles `b`, `A` and `c`: the lines are `A`, `b`,
`c`. -/
theorem perform_query_cmd_lines_witness :
    world0.alloc.1 = true ∧ (∀ b ∈ world0.writes, b = true) ∧
    (perform_query_cmd
        { request0 "127.0.0.1" with
            command := cmd_t.QUERY,
            consoles := .objs [console0 1 "b", console0 2 "A", console0 3 "c"] } world0).2.trace
      = world0.trace ++ [Event.write 3 "OK\n".toList true]
          ++ (list_sort [console0 1 "b", console0 2 "A", console0 3 "c"] compare_objs).map
              (fun o => Event.write 3 (o.name ++ [NL]) true)
          ++ [Event.close 3] ∧
    list_sort [console0 1 "b", console0 2 "A", console0 3 "c"] compare_objs
      = [console0 2 "A", console0 1 "b", console0 3 "c"] :=
  ⟨rfl, by decide,
   (perform_query_cmd_lines
      { request0 "127.0.0.1" with
          command := cmd_t.QUERY,
          consoles := .objs [console0 1 "b", console0 2 "A", console0 3 "c"] } world0 rfl
      (by decide) (by decide)).1,
   by decide⟩

/-! ## C12 -/

/-- C12 does not hold on the code: the request line
`CONNECT CONSOLE='a' CONSOLE='b' OPTION=BROADCAST` is parsed with `enableBroadcast` set,
resolved on the registry `conf0` to the consoles `a` and `b` and passed by `validate_req`;
`perform_connect_cmd` then links the new client object 4 with the console `a` only, as its
writer and its reader, and leaves the console `b` with no writer and no reader. -/
theorem perform_connect_cmd_first_console :
    recv_req ere 50
        (Tok.KW .CONNECT :: console_clause "a" ++ console_clause "b"
          ++ [Tok.KW .OPTION, Tok.CHR '=', Tok.KW .BROADCAST, Tok.EOL])
        { request0 "127.0.0.1" with user := some "u".toList } world0
      = (0, { request0 "127.0.0.1" with
                user := some "u".toList, command := cmd_t.CONNECT, enableBroadcast := 1,
                consoles := .strs ["a".toList, "b".toList] }, world0) ∧
    query_consoles ere conf0
        { request0 "127.0.0.1" with
            user := some "u".toList, command := cmd_t.CONNECT, enableBroadcast := 1,
            consoles := .strs ["a".toList, "b".toList] } world0
      = (0, { request0 "127.0.0.1" with
                user := some "u".toList, command := cmd_t.CONNECT, enableBroadcast := 1,
                consoles := .objs [console0 1 "a", console0 2 "b"] }, world0) ∧
    validate_req
        { request0 "127.0.0.1" with
            user := some "u".toList, command := cmd_t.CONNECT, enableBroadcast := 1,
            consoles := .objs [console0 1 "a", console0 2 "b"] } world0
      = (0, world0) ∧
    (perform_connect_cmd
        { request0 "127.0.0.1" with
            user := some "u".toList, command := cmd_t.CONNECT, enableBroadcast := 1,
            consoles := .objs [console0 1 "a", console0 2 "b"] } conf0 world0).2.1.objs
      = [{ console0 1 "a" with writer := some 4, readers := [4] },
         console0 2 "b",
         { id := 3, name := "a.log".toList, type := obj_type.LOGFILE, writer := none,
           readers := [] },
         { id := 4, name := "u@".toList, type := obj_type.SOCKET, writer := some 1,
           readers := [1], fd := 3 }] :=
  ⟨by decide, by decide, by decide, by decide⟩

/-! ## C13 -/

/-- C13 does not hold on the code: a session from 127.0.0.1 on descriptor 3 with the
greeting `HELLO USER='u'` and the request line `EXECUTE CONSOLE='a'`, on the registry
`conf0`, passes `validate_req`; when `process_client` returns, the only write is the `OK`
that answers the greeting, the descriptor has not been closed and the registry is as it
was. -/
theorem process_client_execute :
    process_client ere true conf0 3 "127.0.0.1".toList none 15 (hello_line "u")
        20 (Tok.KW .EXECUTE :: console_clause "a" ++ [Tok.EOL]) world0
      = (conf0, { world0 with trace := [Event.write 3 "OK\n".toList true] }) :=
  by decide

/-! ## C14 -/

/-- C14 does not hold on the code: (1) a session on the accepted descriptor 0 whose peer
closes before the greeting (`read_line` returns 0) fails, and `process_client` returns
without closing the descriptor; (2) a session on descriptor 3 with the greeting
`HELLO USER='u'` and the request line `MONITOR CONSOLE='a'` passes `validate_req`, and
`process_client` returns with the descriptor neither closed nor held by an object of the
registry; (3) the same failing session on descriptor 3 does close it, once. -/
theorem process_client_descriptor :
    process_client ere true conf0 0 "127.0.0.1".toList none 0 [] 0 [] world0
      = (conf0, world0) ∧
    process_client ere true conf0 3 "127.0.0.1".toList none 15 (hello_line "u")
        20 (Tok.KW .MONITOR :: console_clause "a" ++ [Tok.EOL]) world0
      = (conf0, { world0 with trace := [Event.write 3 "OK\n".toList true] }) ∧
    conf0.objs.all (fun o => decide (o.fd ≠ 3)) = true ∧
    process_client ere true conf0 3 "127.0.0.1".toList none 0 [] 0 [] world0
      = (conf0, { world0 with trace := [Event.close 3] }) :=
  ⟨by decide, by decide, by decide, by decide⟩

/-! ## C15 -/

/-- C15: a request line made of one command keyword and then well-formed option clauses
`cs` (with or without the newline at the end), read with success, with no allocation
failing, into the request `create_req` made (no pattern, both flags 0): `recv_req` returns 0
with that command, `enableForce` 1 if the clause `OPTION=FORCE` occurs and 0 if not,
`enableBroadcast` 1 if `OPTION=BROADCAST` occurs and 0 if not, the program the decoded
string of the last non-empty `PROGRAM` clause, and as pattern list the decoded strings of
the `CONSOLE` clauses with non-empty pattern in order of occurrence; and for clauses with at
most one `PROGRAM` clause, as the grammar has them, a permutation of the clauses gives the
same request but for the pattern list, which is permuted. -/
theorem recv_req_clauses {Rex : Type} (x : Ext Rex) (n : Int) (req : req_t) (w : World)
    (t : Tok) (c : cmd_t) (cs : List Clause) (tail : List Tok) (hn : 0 < n)
    (hw : w.allocs = []) (hc : command_of t = some c) (hreq : req.consoles = .strs [])
    (hf0 : req.enableForce = 0) (hb0 : req.enableBroadcast = 0)
    (ht : tail = [] ∨ tail = [Tok.EOL]) :
    recv_req x n (t :: clause_tokens cs ++ tail) req w
      = (0, { req with
                command := c,
                enableForce := if has_option .FORCE cs then 1 else 0,
                enableBroadcast := if has_option .BROADCAST cs then 1 else 0,
                program := clause_program x.lex_decode req.program cs,
                consoles := .strs (clause_patterns x.lex_decode cs) }, w) ∧
    (∀ cs' : List Clause, cs.Perm cs' → (cs.filter Clause.is_program).length ≤ 1 →
      recv_req x n (t :: clause_tokens cs' ++ tail) req w
        = (0, { (recv_req x n (t :: clause_tokens cs ++ tail) req w).2.1 with
                  consoles := .strs (clause_patterns x.lex_decode cs') }, w) ∧
      (clause_patterns x.lex_decode cs).Perm (clause_patterns x.lex_decode cs')) := by
  have hn1 : ¬ n < 0 := by omega
  have hn2 : ¬ n = 0 := by omega
  have main : ∀ cs : List Clause,
      recv_req x n (t :: clause_tokens cs ++ tail) req w
        = (0, { req with
                  command := c,
                  enableForce := if has_option .FORCE cs then 1 else 0,
                  enableBroadcast := if has_option .BROADCAST cs then 1 else 0,
                  program := clause_program x.lex_decode req.program cs,
                  consoles := .strs (clause_patterns x.lex_decode cs) }, w) := by
    intro cs
    have hp := parse_cmd_opts_clauses x w hw tail ht cs { req with command := c } [] hreq
    unfold recv_req
    simp only [hn1, hn2, if_false, alloc_of_nil w hw, Bool.true_eq_false, List.cons_append,
      List.length_cons]
    unfold recv_req_loop
    simp only [hc, hp, ne_eq, not_true_eq_false, if_false, recv_req_loop_nil]
    simp [hf0, hb0]
  refine ⟨main cs, ?_⟩
  intro cs' hperm h1
  refine ⟨?_, clause_patterns_perm _ hperm⟩
  rw [main cs', main cs, has_option_perm _ hperm, has_option_perm _ hperm,
    clause_program_perm _ _ hperm h1]

/-- C15 at the line `CONNECT CONSOLE='a' OPTION=FORCE CONSOLE='b'` and at the same clauses
with the option first. -/
theorem recv_req_clauses_witness :
    (0 : Int) < 40 ∧ world0.allocs = [] ∧ command_of (Tok.KW .CONNECT) = some cmd_t.CONNECT ∧
    recv_req ere 40
        (Tok.KW .CONNECT :: clause_tokens
          [Clause.console "a".toList, Clause.option .FORCE, Clause.console "b".toList]
          ++ [Tok.EOL]) (request0 "127.0.0.1") world0
      = (0, { request0 "127.0.0.1" with
                command := cmd_t.CONNECT, enableForce := 1, enableBroadcast := 0,
                program := none, consoles := .strs ["a".toList, "b".toList] }, world0) ∧
    (recv_req ere 40
        (Tok.KW .CONNECT :: clause_tokens
          [Clause.option .FORCE, Clause.console "b".toList, Clause.console "a".toList]
          ++ [Tok.EOL]) (request0 "127.0.0.1") world0).2.1.consoles
      = .strs ["b".toList, "a".toList] :=
  ⟨by decide, rfl, rfl,
   (recv_req_clauses ere 40 (request0 "127.0.0.1") world0 (Tok.KW .CONNECT) cmd_t.CONNECT
      [Clause.console "a".toList, Clause.option .FORCE, Clause.console "b".toList] [Tok.EOL]
      (by decide) rfl rfl rfl rfl rfl (Or.inr rfl)).1.trans (by decide),
   by decide⟩

/-! ## C16 -/

/-- C16: (1) `recv_req` fails only on a read error or on resource exhaustion: whatever the
tokens of the line, when the line was read (`0 < n`) and no allocation fails it returns 0;
(2) for a line made of a command keyword and complete clauses, unrecognised tokens put
before the keyword, between the keyword and the first clause, between two clauses or after
the last clause change nothing in the result of `recv_req`: the return value, the request
(command, flags, program, pattern list) and the world are those of the line without
them. -/
theorem recv_req_unrecognised {Rex : Type} (x : Ext Rex) (n : Int) (req : req_t) (w : World) :
    (∀ toks : List Tok, 0 < n → (∀ b ∈ w.allocs, b = true) →
      (recv_req x n toks req w).1 = 0) ∧
    (∀ (pre : List Tok) (t : Tok) (c : cmd_t) (items : List Item) (tail : List Tok),
      (∀ u ∈ pre, unrecognised u = true) → command_of t = some c →
      items_unrecognised items = true →
      recv_req x n (pre ++ t :: item_tokens items ++ tail) req w
        = recv_req x n (t :: clause_tokens (item_clauses items) ++ tail) req w) := by
  constructor
  · intro toks hn hw
    have hn1 : ¬ n < 0 := by omega
    have hn2 : ¬ n = 0 := by omega
    have ha := alloc_of_all w hw
    have hl := recv_req_loop_rc x (toks.length + 1) toks req w.alloc.2 ha.2
    unfold recv_req
    simp [hn1, hn2, ha.1, hl]
  · intro pre t c items tail hpre hc hitems
    have e1 : recv_req_loop x ((pre ++ t :: item_tokens items ++ tail).length + 1)
          (pre ++ t :: item_tokens items ++ tail) req w.alloc.2
        = recv_req_loop x ((t :: clause_tokens (item_clauses items) ++ tail).length + 1)
            (t :: clause_tokens (item_clauses items) ++ tail) req w.alloc.2 := by
      have e : (pre ++ t :: item_tokens items ++ tail).length + 1
          = ((t :: item_tokens items ++ tail).length + 1) + pre.length := by
        simp only [List.length_append, List.length_cons]; omega
      rw [e, List.append_assoc, recv_req_loop_skip x pre hpre]
      exact recv_req_loop_items x t c hc items hitems tail req w.alloc.2
    unfold recv_req
    simp only [e1]

/-- C16 at the line `JOIN QUERY TTY CONSOLE='a' 'x' OPTION=FORCE` and at `QUERY` alone. -/
theorem recv_req_unrecognised_witness :
    (0 : Int) < 30 ∧ (∀ b ∈ world0.allocs, b = true) ∧
    (∀ u ∈ [Tok.KW .JOIN], unrecognised u = true) ∧
    command_of (Tok.KW .QUERY) = some cmd_t.QUERY ∧
    items_unrecognised
      [Item.other (Tok.KW .TTY), Item.clause (Clause.console "a".toList),
        Item.other (Tok.STR "x".toList), Item.clause (Clause.option .FORCE)] = true ∧
    (recv_req ere 30 [Tok.KW .QUERY, Tok.EOL] (request0 "127.0.0.1") world0).1 = 0 ∧
    recv_req ere 30
        ([Tok.KW .JOIN] ++ Tok.KW .QUERY :: item_tokens
          [Item.other (Tok.KW .TTY), Item.clause (Clause.console "a".toList),
            Item.other (Tok.STR "x".toList), Item.clause (Clause.option .FORCE)] ++ [Tok.EOL])
        (request0 "127.0.0.1") world0
      = recv_req ere 30
          (Tok.KW .QUERY :: clause_tokens (item_clauses
            [Item.other (Tok.KW .TTY), Item.clause (Clause.console "a".toList),
              Item.other (Tok.STR "x".toList), Item.clause (Clause.option .FORCE)])
            ++ [Tok.EOL])
          (request0 "127.0.0.1") world0 :=
  ⟨by decide, by decide, by decide, rfl, by decide,
   (recv_req_unrecognised ere 30 (request0 "127.0.0.1") world0).1 _ (by decide) (by decide),
   (recv_req_unrecognised ere 30 (request0 "127.0.0.1") world0).2 [Tok.KW .JOIN]
      (Tok.KW .QUERY) cmd_t.QUERY _ [Tok.EOL] (by decide) rfl (by decide)⟩

/-! ## C17 -/

/-- C17: for a request that comes from `create_req` (no command, no pattern) and every
request line: (1) when `recv_req`, `query_consoles` and `validate_req` all return 0, the
command of the request is CONNECT, EXECUTE, MONITOR or QUERY, so the `switch` of
`process_client` never takes its default branch; (2) a line with no command keyword, read
with success and with no allocation failing, leaves the request as it was, passes
`query_consoles` unchanged and is rejected by `validate_req` with -1. -/
theorem validate_req_command {Rex : Type} (x : Ext Rex) (conf : server_conf_t) (n : Int)
    (toks : List Tok) (req : req_t) (w : World) (hcmd : req.command = cmd_t.NONE)
    (hreq : req.consoles = .strs []) :
    ((recv_req x n toks req w).1 = 0 →
      (query_consoles x conf (recv_req x n toks req w).2.1 (recv_req x n toks req w).2.2).1
        = 0 →
      (validate_req
        (query_consoles x conf (recv_req x n toks req w).2.1
          (recv_req x n toks req w).2.2).2.1
        (query_consoles x conf (recv_req x n toks req w).2.1
          (recv_req x n toks req w).2.2).2.2).1 = 0 →
      (query_consoles x conf (recv_req x n toks req w).2.1
          (recv_req x n toks req w).2.2).2.1.command
        ∈ [cmd_t.CONNECT, cmd_t.EXECUTE, cmd_t.MONITOR, cmd_t.QUERY]) ∧
    ((∀ t ∈ toks, command_of t = none) → 0 < n → w.allocs = [] →
      recv_req x n toks req w = (0, req, w) ∧
      query_consoles x conf req w = (0, req, w) ∧
      (validate_req req w).1 = -1) := by
  constructor
  · intro _ hq hv
    have hinv := recv_req_command x n toks req w (fun _ => hreq)
    generalize (recv_req x n toks req w).2.1 = r at hinv hq hv ⊢
    generalize (recv_req x n toks req w).2.2 = w1 at hq hv ⊢
    by_cases hn : r.command = cmd_t.NONE
    · exfalso
      have hc := hinv hn
      have e : query_consoles x conf r w1 = (0, r, w1) := by
        simp [query_consoles, hc, hn]
      rw [e] at hv
      simp [validate_req, hc, console_list.is_empty] at hv
    · have e : (query_consoles x conf r w1).2.1.command = r.command := by
        unfold query_consoles
        split
        · rfl
        · split
          · split
            · rfl
            · split
              · rfl
              · split
                · rfl
                · unfold query_resolve query_no_mem
                  repeat' split
                  all_goals rfl
          · unfold query_resolve query_no_mem
            repeat' split
            all_goals rfl
      rw [e]
      cases hr : r.command <;> simp_all
  · intro hno hn hw
    have hn1 : ¬ n < 0 := by omega
    have hn2 : ¬ n = 0 := by omega
    refine ⟨?_, ?_, ?_⟩
    · unfold recv_req
      simp [hn1, hn2, alloc_of_nil w hw, recv_req_loop_no_command x _ toks req w hno]
    · simp [query_consoles, hreq, hcmd]
    · simp [validate_req, hreq, console_list.is_empty]

/-- C17 at the line `CONSOLE='a' OPTION=FORCE`, which has no command keyword. -/
theorem validate_req_command_witness :
    (request0 "127.0.0.1").command = cmd_t.NONE ∧
    (request0 "127.0.0.1").consoles = .strs [] ∧
    (∀ t ∈ console_clause "a" ++ [Tok.KW .OPTION, Tok.CHR '=', Tok.KW .FORCE, Tok.EOL],
      command_of t = none) ∧
    (0 : Int) < 30 ∧ world0.allocs = [] ∧
    recv_req ere 30
        (console_clause "a" ++ [Tok.KW .OPTION, Tok.CHR '=', Tok.KW .FORCE, Tok.EOL])
        (request0 "127.0.0.1") world0
      = (0, request0 "127.0.0.1", world0) ∧
    query_consoles ere conf0 (request0 "127.0.0.1") world0
      = (0, request0 "127.0.0.1", world0) ∧
    (validate_req (request0 "127.0.0.1") world0).1 = -1 :=
  ⟨rfl, rfl, by decide, by decide, rfl,
   ((validate_req_command ere conf0 30 _ (request0 "127.0.0.1") world0 rfl rfl).2
      (by decide) (by decide) rfl).1,
   ((validate_req_command ere conf0 30
      (console_clause "a" ++ [Tok.KW .OPTION, Tok.CHR '=', Tok.KW .FORCE, Tok.EOL])
      (request0 "127.0.0.1") world0 rfl rfl).2 (by decide) (by decide) rfl).2.1,
   ((validate_req_command ere conf0 30
      (console_clause "a" ++ [Tok.KW .OPTION, Tok.CHR '=', Tok.KW .FORCE, Tok.EOL])
      (request0 "127.0.0.1") world0 rfl rfl).2 (by decide) (by decide) rfl).2.2⟩

/-! ## C18 -/

/-- C18: for a hostent with `h_length` not negative and a buffer length `len` from 0 to
`INT_MAX`, when the size of the copy (the struct, the two arrays of pointers with one entry
for each alias and each address and one for each `NULL`, the addresses, the aliases and the
name with their NULs) fits an `int`: `copy_hostent` returns 0 if and only if `len` is at
least that size, it returns -1 otherwise, and in either case every write it makes stays
within the first `len` bytes of the buffer. -/
theorem copy_hostent_size (abi : Abi) (src : hostent) (len : Int) (h0 : 0 ≤ len)
    (h1 : len ≤ INT_MAX) (hh : 0 ≤ src.h_length) (ht : hostent_size abi src ≤ INT_MAX) :
    ((copy_hostent abi src len).1 = 0 ↔ hostent_size abi src ≤ len) ∧
    ((copy_hostent abi src len).1 ≠ 0 → (copy_hostent abi src len).1 = -1) ∧
    ∀ wr ∈ (copy_hostent abi src len).2, write_within len wr := by
  have hS : (0 : Int) ≤ abi.sizeof_hostent := Int.ofNat_nonneg _
  have hP : (0 : Int) ≤ abi.sizeof_ptr := Int.ofNat_nonneg _
  have hA := ptrs_size_pos abi.sizeof_ptr hP src.h_aliases
  have hD := ptrs_size_pos abi.sizeof_ptr hP src.h_addr_list
  have hB := addrs_size_nonneg src.h_length hh src.h_addr_list
  have hC := strings_size_nonneg src.h_aliases
  rw [hostent_size_eq] at ht ⊢
  unfold copy_hostent
  dsimp only
  rw [← ptrs_size_eq, ← ptrs_size_eq]
  simp only [INT_MAX] at h1 ht
  generalize (abi.sizeof_hostent : Int) = S at *
  generalize hPe : (abi.sizeof_ptr : Int) = P at *
  generalize hAe : ptrs_size P src.h_aliases = A at *
  generalize hDe : ptrs_size P src.h_addr_list = D at *
  have hN : (0 : Int) ≤ (src.h_name.length : Int) := Int.ofNat_nonneg _
  have e1 : to_int (len - S) = len - S := to_int_id _ (by omega) (by omega)
  have e2 : to_int (len - S - A) = len - S - A := to_int_id _ (by omega) (by omega)
  have e3 : to_int (len - S - A - D) = len - S - A - D := to_int_id _ (by omega) (by omega)
  have e4 : to_int ((src.h_name.length : Int) + 1) = (src.h_name.length : Int) + 1 :=
    to_int_id _ (by omega) (by omega)
  rw [e1, e2, e3, e4]
  clear e1 e2 e3 e4
  by_cases c1 : len - S < 0
  · rw [if_pos c1]
    refine ⟨⟨fun h => by simp at h, fun h => by omega⟩, fun _ => rfl, by simp⟩
  · rw [if_neg c1]
    have w0 : write_within len (0, S) := Or.inr ⟨le_refl _, by simp only; omega⟩
    by_cases c2 : len - S - A < 0
    · rw [if_pos c2]
      refine ⟨⟨fun h => by simp at h, fun h => by omega⟩, fun _ => rfl, ?_⟩
      intro wr hwr
      simp only [List.mem_singleton] at hwr
      exact hwr ▸ w0
    · rw [if_neg c2]
      by_cases c3 : len - S - A - D < 0
      · rw [if_pos c3]
        refine ⟨⟨fun h => by simp at h, fun h => by omega⟩, fun _ => rfl, ?_⟩
        intro wr hwr
        simp only [List.mem_singleton] at hwr
        exact hwr ▸ w0
      · rw [if_neg c3]
        have sa := copy_addrs_spec src.h_length P hh hP src.h_addr_list (S + A)
          (len - S - A - D) (S + A + D) (by omega) (by simp only [INT_MAX]; omega)
          (by simp only [INT_MAX]; omega)
        rw [hDe] at sa
        have wa : ∀ wr ∈ (copy_addrs src.h_length P src.h_addr_list (S + A)
            (len - S - A - D) (S + A + D)).2, write_within len wr := by
          intro wr hwr
          rcases sa.2 wr hwr with (h3 | h3) | h3
          · exact Or.inl h3
          · exact Or.inr ⟨by omega, by omega⟩
          · exact Or.inr ⟨by omega, by omega⟩
        by_cases c4 : addrs_size src.h_length src.h_addr_list ≤ len - S - A - D
        · rw [sa.1, if_pos c4]
          dsimp only
          have sb := copy_aliases_spec P hP src.h_aliases S
            (len - S - A - D - addrs_size src.h_length src.h_addr_list)
            (S + A + D + addrs_size src.h_length src.h_addr_list) (by omega)
            (by simp only [INT_MAX]; omega) (by simp only [INT_MAX]; omega)
          rw [hAe] at sb
          have wb : ∀ wr ∈ (copy_aliases P src.h_aliases S
              (len - S - A - D - addrs_size src.h_length src.h_addr_list)
              (S + A + D + addrs_size src.h_length src.h_addr_list)).2,
              write_within len wr := by
            intro wr hwr
            rcases sb.2 wr hwr with (h3 | h3) | h3
            · exact Or.inl h3
            · exact Or.inr ⟨by omega, by omega⟩
            · exact Or.inr ⟨by omega, by omega⟩
          by_cases c5 : strings_size src.h_aliases
              ≤ len - S - A - D - addrs_size src.h_length src.h_addr_list
          · rw [sb.1, if_pos c5]
            dsimp only
            have e5 : to_int (len - S - A - D - addrs_size src.h_length src.h_addr_list
                  - strings_size src.h_aliases - ((src.h_name.length : Int) + 1))
                = len - S - A - D - addrs_size src.h_length src.h_addr_list
                  - strings_size src.h_aliases - ((src.h_name.length : Int) + 1) :=
              to_int_id _ (by omega) (by omega)
            rw [e5]
            clear e5
            have hcnt := strlcpy_count_le src.h_name
              (len - S - A - D - addrs_size src.h_length src.h_addr_list
                - strings_size src.h_aliases)
            have wn : write_within len
                (S + A + D + addrs_size src.h_length src.h_addr_list
                  + strings_size src.h_aliases,
                 strlcpy_count src.h_name
                  (len - S - A - D - addrs_size src.h_length src.h_addr_list
                    - strings_size src.h_aliases)) := by
              rcases hcnt with h3 | h3
              · exact Or.inl h3
              · exact Or.inr ⟨by simp only; omega, by simp only; omega⟩
            have wall : ∀ wr ∈ (0, S) ::
                ((copy_addrs src.h_length P src.h_addr_list (S + A)
                    (len - S - A - D) (S + A + D)).2
                  ++ (copy_aliases P src.h_aliases S
                    (len - S - A - D - addrs_size src.h_length src.h_addr_list)
                    (S + A + D + addrs_size src.h_length src.h_addr_list)).2
                  ++ [(S + A + D + addrs_size src.h_length src.h_addr_list
                        + strings_size src.h_aliases,
                      strlcpy_count src.h_name
                        (len - S - A - D - addrs_size src.h_length src.h_addr_list
                          - strings_size src.h_aliases))]),
                write_within len wr := by
              intro wr hwr
              simp only [List.mem_cons, List.mem_append, List.not_mem_nil, or_false] at hwr
              rcases hwr with rfl | (h5 | h5) | rfl
              · exact w0
              · exact wa wr h5
              · exact wb wr h5
              · exact wn
            by_cases c6 : len - S - A - D - addrs_size src.h_length src.h_addr_list
                - strings_size src.h_aliases - ((src.h_name.length : Int) + 1) < 0
            · rw [if_pos c6]
              exact ⟨⟨fun h => by simp at h, fun h => by omega⟩, fun _ => rfl, wall⟩
            · rw [if_neg c6]
              exact ⟨⟨fun _ => by omega, fun _ => rfl⟩, fun h => absurd rfl h, wall⟩
          · rw [sb.1, if_neg c5]
            dsimp only
            refine ⟨⟨fun h => by simp at h, fun h => by omega⟩, fun _ => rfl, ?_⟩
            intro wr hwr
            simp only [List.mem_cons, List.mem_append] at hwr
            rcases hwr with rfl | h5 | h5
            · exact w0
            · exact wa wr h5
            · exact wb wr h5
        · rw [sa.1, if_neg c4]
          dsimp only
          refine ⟨⟨fun h => by simp at h, fun h => by omega⟩, fun _ => rfl, ?_⟩
          intro wr hwr
          simp only [List.mem_cons] at hwr
          rcases hwr with rfl | h5
          · exact w0
          · exact wa wr h5

/-- Witness for C18: a hostent with one alias and two addresses of four bytes, whose copy
takes 87 bytes with pointers of eight bytes and a struct of 32, offered a buffer of 87. -/
theorem copy_hostent_size_witness :
    (0 : Int) ≤ 87 ∧ (87 : Int) ≤ INT_MAX ∧ 0 ≤ hostent0.h_length ∧
    hostent_size lp64 hostent0 ≤ INT_MAX ∧
    (((copy_hostent lp64 hostent0 87).1 = 0 ↔ hostent_size lp64 hostent0 ≤ 87) ∧
     ((copy_hostent lp64 hostent0 87).1 ≠ 0 → (copy_hostent lp64 hostent0 87).1 = -1) ∧
     ∀ wr ∈ (copy_hostent lp64 hostent0 87).2, write_within 87 wr) :=
  ⟨by decide, by decide, by decide, by decide,
   copy_hostent_size lp64 hostent0 87 (by decide) (by decide) (by decide) (by decide)⟩

end Conman
